import Mathlib

/-!
Verification of the achievement lifecycle and dual-store consistency core of
the `sistem-prestasi-mahasiswa` service.

The repository contains two generations of the achievement stack, both present
in the source tree and both wired by route files:

* the context-based generation ("Ctx" below): service `AchievementService` in
  `src/unnamed/part_002` over the repository `AchievementRepository` in
  `src/app/repository/achievement_repository.go` (raw SQL + mongo driver),
  wired by `src/app/routes/achievement.go`;
* the legacy generation ("Legacy" below): service `achievementService` in
  `src/app/service/achievement.go` over the interface repository
  `achievementRepository` in `src/app/repository/student_repository.go`
  (gorm + mongo driver), wired by `src/unnamed/part_010`.

Both are embedded faithfully.  Modelling conventions:

* UUIDs are `Nat`; `time.Time` values are `Nat` instants; MongoDB ObjectIDs
  are their 24-character hex strings (`String`), with
  `primitive.ObjectIDFromHex` modelled by a length/hex-digit check.
* Each store is an association list keyed by its identifier; the relational
  reference store keyed by `Nat` uuid, the document store keyed by the hex id.
* Store-level transient failures (the mongo driver or `database/sql` returning
  an error on a write) are injected through an `Oracle` of booleans, one per
  kind of write; error values are the Go error strings (transient-store error
  strings are abbreviated to `"store unavailable: …"` since Go surfaces
  driver-dependent text there).
* Pure data payload fields the code never branches on (the `details` map,
  attachments, points) are elided from the document model; the fields the
  claims are about (owner, type, title, description, tags, timestamps, soft
  delete markers) are kept.
-/

/-- Association-list lookup: first binding of key `k`, as the SQL/Mongo
primary-key lookups behave. -/
def findRow {κ α : Type} [DecidableEq κ] (k : κ) : List (κ × α) → Option α
  | [] => none
  | (k', v) :: rest => if k' = k then some v else findRow k rest

/-- Association-list update: apply `f` to the first binding of `k`, leave the
list unchanged when the key is absent (the semantics of `UpdateOne` / SQL
`UPDATE … WHERE id = _` with zero matched rows). -/
def updateRow {κ α : Type} [DecidableEq κ] (k : κ) (f : α → α) : List (κ × α) → List (κ × α)
  | [] => []
  | (k', v) :: rest => if k' = k then (k', f v) :: rest else (k', v) :: updateRow k f rest

theorem findRow_updateRow_self {κ α : Type} [DecidableEq κ] (k : κ) (f : α → α) :
    ∀ l : List (κ × α), findRow k (updateRow k f l) = (findRow k l).map f := by
  intro l
  induction l with
  | nil => rfl
  | cons hd tl ih =>
    obtain ⟨k', v⟩ := hd
    by_cases h : k' = k
    · simp [findRow, updateRow, h]
    · simp [findRow, updateRow, h, ih]

theorem findRow_updateRow_ne {κ α : Type} [DecidableEq κ] (k k' : κ) (f : α → α)
    (hne : k' ≠ k) : ∀ l : List (κ × α), findRow k' (updateRow k f l) = findRow k' l := by
  intro l
  induction l with
  | nil => rfl
  | cons hd tl ih =>
    obtain ⟨k0, v⟩ := hd
    by_cases h : k0 = k
    · subst h
      have hne' : ¬ k0 = k' := fun hc => hne (hc.symm)
      simp [findRow, updateRow, hne']
    · simp [findRow, updateRow, h, ih]

/-- The achievement reference status enumeration (`models.AchievementStatus*`,
stored as the strings `draft`, `submitted`, `verified`, `rejected`,
`deleted`). -/
inductive Status where
  | draft
  | submitted
  | verified
  | rejected
  | deleted
deriving DecidableEq, Repr

/-- Availability of each kind of store write; `false` injects the transient
store failure for that write (`InsertOne`/`INSERT`, `UpdateOne`,
`UPDATE`/gorm `Save` respectively). Reads are modelled as always available:
every claim here is about write-path behaviour. -/
structure Oracle where
  mongoInsertOk : Bool
  refInsertOk : Bool
  mongoUpdateOk : Bool
  refUpdateOk : Bool
deriving DecidableEq, Repr

/-- `primitive.ObjectIDFromHex` accepts exactly 24 hex digits. -/
def isHexDigit (c : Char) : Bool :=
  (('0' : Char) ≤ c && c ≤ ('9' : Char)) ||
  (('a' : Char) ≤ c && c ≤ ('f' : Char)) ||
  (('A' : Char) ≤ c && c ≤ ('F' : Char))

/-- Model of `primitive.ObjectIDFromHex`: succeeds (returning the object id,
which we identify with its hex form) iff the string is 24 hex digits. -/
def ObjectIDFromHex (s : String) : Option String :=
  if s.data.length = 24 && s.data.all isHexDigit then some s else none

namespace Ctx

/-- Mongo achievement document, `models.Achievement`
(`src/app/models/achievement.go`) plus the schemaless `deleted_at` marker
written by `AchievementRepository.SoftDeleteAchievement`. -/
structure Achievement where
  id : String
  studentID : Nat
  achievementType : String
  title : String
  description : String
  tags : List String
  deletedAt : Option Nat
  createdAt : Nat
  updatedAt : Nat
deriving DecidableEq, Repr

/-- Relational reference row, `models.AchievementReference`
(`src/app/models/achievement.go`), columns of `refColumns` in
`src/app/repository/achievement_repository.go`. -/
structure AchievementReference where
  id : Nat
  studentID : Nat
  mongoAchievementID : String
  status : Status
  submittedAt : Option Nat
  verifiedAt : Option Nat
  verifiedBy : Option Nat
  rejectionNote : Option String
  createdAt : Nat
  updatedAt : Nat
deriving DecidableEq, Repr

/-- The two stores: the mongo `achievements` collection keyed by object id
and the `achievement_references` table keyed by uuid. -/
structure DB where
  mongo : List (String × Achievement)
  refs : List (Nat × AchievementReference)
deriving DecidableEq, Repr

/-- `models.CreateAchievementRequest`. -/
structure CreateAchievementRequest where
  achievementType : String
  title : String
  description : String
  tags : List String
deriving DecidableEq, Repr

namespace Repo

/-- `AchievementRepository.CreateAchievement`: generate a fresh ObjectID and
`InsertOne` the document. -/
def CreateAchievement (o : Oracle) (freshOid : String) (db : DB) (a : Achievement) :
    Except String (DB × Achievement) :=
  if o.mongoInsertOk then
    let a2 := { a with id := freshOid }
    .ok ({ db with mongo := (freshOid, a2) :: db.mongo }, a2)
  else .error "store unavailable: mongo insert"

/-- `AchievementRepository.GetAchievementByID`: `FindOne` by `_id`; a missing
document yields the generic error `mongo achievement not found`. -/
def GetAchievementByID (db : DB) (oid : String) : Except String Achievement :=
  match findRow oid db.mongo with
  | some a => .ok a
  | none => .error "mongo achievement not found"

/-- `AchievementRepository.SoftDeleteAchievement`: `UpdateOne` setting
`deleted_at = time.Now()`; matching zero documents is not an error. -/
def SoftDeleteAchievement (o : Oracle) (now : Nat) (db : DB) (oid : String) :
    Except String DB :=
  if o.mongoUpdateOk then
    .ok { db with mongo := updateRow oid (fun a => { a with deletedAt := some now }) db.mongo }
  else .error "store unavailable: mongo update"

/-- `AchievementRepository.CreateReference`: `INSERT` of
`(id, student_id, mongo_achievement_id, status, NOW(), NOW())`; the nullable
columns start NULL regardless of the struct passed in (`RETURNING` scans the
row back). -/
def CreateReference (o : Oracle) (now : Nat) (db : DB) (ref : AchievementReference) :
    Except String (DB × AchievementReference) :=
  if o.refInsertOk then
    let r : AchievementReference :=
      { id := ref.id, studentID := ref.studentID,
        mongoAchievementID := ref.mongoAchievementID, status := ref.status,
        submittedAt := none, verifiedAt := none, verifiedBy := none,
        rejectionNote := none, createdAt := now, updatedAt := now }
    .ok ({ db with refs := (ref.id, r) :: db.refs }, r)
  else .error "store unavailable: ref insert"

/-- `AchievementRepository.GetReferenceByID`. -/
def GetReferenceByID (db : DB) (id : Nat) : Except String AchievementReference :=
  match findRow id db.refs with
  | some r => .ok r
  | none => .error "reference not found"

/-- The row transformation performed by the dynamically built `UPDATE` of
`AchievementRepository.UpdateStatus`: always `status` and `updated_at`;
`submitted` adds `submitted_at = NOW()`; `verified` and `rejected` add
`verified_at = NOW()` and conditionally `verified_by` / `rejection_note`. -/
def updateStatusRow (now : Nat) (status : Status) (verifierID : Option Nat)
    (note : Option String) (r : AchievementReference) : AchievementReference :=
  let r1 := { r with status := status, updatedAt := now }
  match status with
  | .submitted => { r1 with submittedAt := some now }
  | .verified | .rejected =>
    let r2 := { r1 with verifiedAt := some now }
    let r3 := match verifierID with
      | some v => { r2 with verifiedBy := some v }
      | none => r2
    match note with
    | some n => { r3 with rejectionNote := some n }
    | none => r3
  | _ => r1

/-- `AchievementRepository.UpdateStatus`: `UPDATE … WHERE id = $2` (no guard
on the current status); zero affected rows is the error
`reference not found or no change`. -/
def UpdateStatus (o : Oracle) (now : Nat) (db : DB) (id : Nat) (status : Status)
    (verifierID : Option Nat) (note : Option String) : Except String DB :=
  if o.refUpdateOk then
    match findRow id db.refs with
    | some _ =>
      .ok { db with refs := updateRow id (updateStatusRow now status verifierID note) db.refs }
    | none => .error "reference not found or no change"
  else .error "store unavailable: ref update"

/-- Descending insertion by `created_at` (SQL `ORDER BY created_at DESC`). -/
def insertDesc (r : AchievementReference) :
    List AchievementReference → List AchievementReference
  | [] => [r]
  | x :: xs => if x.createdAt ≤ r.createdAt then r :: x :: xs else x :: insertDesc r xs

/-- Sort rows by `created_at` descending. -/
def sortByCreatedDesc : List AchievementReference → List AchievementReference
  | [] => []
  | x :: xs => insertDesc x (sortByCreatedDesc xs)

/-- SQL `LIMIT $limit OFFSET $offset`. -/
def applyPage (limit offset : Nat) (l : List AchievementReference) :
    List AchievementReference :=
  (l.drop offset).take limit

/-- `AchievementRepository.GetStudentAchievements`:
`WHERE student_id = $1 AND status != 'deleted' ORDER BY created_at DESC`. -/
def GetStudentAchievements (db : DB) (studentID : Nat) (limit offset : Nat) :
    List AchievementReference :=
  applyPage limit offset (sortByCreatedDesc
    (((db.refs.map Prod.snd).filter
      (fun r => decide (r.studentID = studentID) && decide (r.status ≠ Status.deleted)))))

/-- `AchievementRepository.GetAdviseeAchievements`:
`WHERE student_id = ANY($1) AND status = 'submitted' ORDER BY created_at DESC`. -/
def GetAdviseeAchievements (db : DB) (adviseeIDs : List Nat) (limit offset : Nat) :
    List AchievementReference :=
  applyPage limit offset (sortByCreatedDesc
    (((db.refs.map Prod.snd).filter
      (fun r => decide (r.studentID ∈ adviseeIDs) && decide (r.status = Status.submitted)))))

/-- `AchievementRepository.ListAll`:
`WHERE status != 'deleted' ORDER BY created_at DESC`. -/
def ListAll (db : DB) (limit offset : Nat) : List AchievementReference :=
  applyPage limit offset (sortByCreatedDesc
    (((db.refs.map Prod.snd).filter (fun r => decide (r.status ≠ Status.deleted)))))

end Repo

/-- `AchievementService.CreateAchievement` (`src/unnamed/part_002`): build the
document from the request, insert into mongo, then insert the draft reference;
if the reference insert fails, best-effort soft-delete the orphan document
(its own failure is ignored) and surface the original error.  The pair's
second component is the resulting store state. -/
def CreateAchievement (o : Oracle) (now : Nat) (freshOid : String) (freshRefId : Nat)
    (db : DB) (studentID : Nat) (req : CreateAchievementRequest) :
    Except String Achievement × DB :=
  let achievement : Achievement :=
    { id := "", studentID := studentID, achievementType := req.achievementType,
      title := req.title, description := req.description, tags := req.tags,
      deletedAt := none, createdAt := now, updatedAt := now }
  match Repo.CreateAchievement o freshOid db achievement with
  | .error e => (.error e, db)
  | .ok (db1, a) =>
    let ref : AchievementReference :=
      { id := freshRefId, studentID := studentID, mongoAchievementID := a.id,
        status := .draft, submittedAt := none, verifiedAt := none,
        verifiedBy := none, rejectionNote := none, createdAt := now, updatedAt := now }
    match Repo.CreateReference o now db1 ref with
    | .error e =>
      let db2 := match Repo.SoftDeleteAchievement o now db1 a.id with
        | .ok d => d
        | .error _ => db1
      (.error e, db2)
    | .ok (db2, _) => (.ok a, db2)

/-- `AchievementService.GetAchievementDetail` (`src/unnamed/part_002`): load
the reference, parse its stored mongo id (malformed ⇒ the distinct
`invalid data integrity: malformed mongo id` error), then load the document. -/
def GetAchievementDetail (db : DB) (referenceID : Nat) : Except String Achievement :=
  match Repo.GetReferenceByID db referenceID with
  | .error e => .error e
  | .ok ref =>
    match ObjectIDFromHex ref.mongoAchievementID with
    | none => .error "invalid data integrity: malformed mongo id"
    | some oid => Repo.GetAchievementByID db oid

/-- `AchievementService.SubmitForVerification` (`src/unnamed/part_002`). -/
def SubmitForVerification (o : Oracle) (now : Nat) (db : DB) (id : Nat) :
    Except String Unit × DB :=
  match Repo.GetReferenceByID db id with
  | .error e => (.error e, db)
  | .ok ref =>
    if ref.status ≠ Status.draft then
      (.error "only draft achievements can be submitted", db)
    else
      match Repo.UpdateStatus o now db id .submitted none none with
      | .error e => (.error e, db)
      | .ok db1 => (.ok (), db1)

/-- `AchievementService.VerifyAchievement` (`src/unnamed/part_002`). -/
def VerifyAchievement (o : Oracle) (now : Nat) (db : DB) (id verifierID : Nat) :
    Except String Unit × DB :=
  match Repo.GetReferenceByID db id with
  | .error e => (.error e, db)
  | .ok ref =>
    if ref.status ≠ Status.submitted then
      (.error "achievement is not in submitted state", db)
    else
      match Repo.UpdateStatus o now db id .verified (some verifierID) none with
      | .error e => (.error e, db)
      | .ok db1 => (.ok (), db1)

/-- `AchievementService.RejectAchievement` (`src/unnamed/part_002`). -/
def RejectAchievement (o : Oracle) (now : Nat) (db : DB) (id verifierID : Nat)
    (note : String) : Except String Unit × DB :=
  match Repo.GetReferenceByID db id with
  | .error e => (.error e, db)
  | .ok ref =>
    if ref.status ≠ Status.submitted then
      (.error "achievement is not in submitted state", db)
    else
      match Repo.UpdateStatus o now db id .rejected (some verifierID) (some note) with
      | .error e => (.error e, db)
      | .ok db1 => (.ok (), db1)

/-- `AchievementService.DeleteAchievement` (`src/unnamed/part_002`): ownership
check, then status must be `draft` or `rejected`, then soft-delete the mongo
document, then flip the reference status to `deleted`.  The Go hex-parse
error text is driver-supplied; it is abbreviated `invalid object id`. -/
def DeleteAchievement (o : Oracle) (now : Nat) (db : DB) (id studentID : Nat) :
    Except String Unit × DB :=
  match Repo.GetReferenceByID db id with
  | .error e => (.error e, db)
  | .ok ref =>
    if ref.studentID ≠ studentID then
      (.error "unauthorized: you do not own this achievement", db)
    else if ref.status ≠ Status.draft ∧ ref.status ≠ Status.rejected then
      (.error "cannot delete achievement that is under review or verified", db)
    else
      match ObjectIDFromHex ref.mongoAchievementID with
      | none => (.error "invalid object id", db)
      | some oid =>
        match Repo.SoftDeleteAchievement o now db oid with
        | .error e => (.error e, db)
        | .ok db1 =>
          match Repo.UpdateStatus o now db1 id .deleted none none with
          | .error e => (.error e, db1)
          | .ok db2 => (.ok (), db2)

/-- A lifecycle event with its actor data, for quantifying over the four
status-changing operations of the Ctx service. -/
inductive LEvent where
  | submit
  | verify (verifierID : Nat)
  | reject (verifierID : Nat) (note : String)
  | delete (studentID : Nat)
deriving DecidableEq, Repr

/-- Dispatch a lifecycle event to the Ctx service operation embedding it. -/
def runEvent (o : Oracle) (now : Nat) (db : DB) (id : Nat) : LEvent → Except String Unit × DB
  | .submit => SubmitForVerification o now db id
  | .verify v => VerifyAchievement o now db id v
  | .reject v note => RejectAchievement o now db id v note
  | .delete sid => DeleteAchievement o now db id sid

/-- The `From` column of the transition table of §4.2 of the spec. -/
def fromStates : LEvent → List Status
  | .submit => [.draft]
  | .verify _ => [.submitted]
  | .reject _ _ => [.submitted]
  | .delete _ => [.draft, .rejected]

/-- The `To` column of the transition table of §4.2 of the spec. -/
def toState : LEvent → Status
  | .submit => .submitted
  | .verify _ => .verified
  | .reject _ _ => .rejected
  | .delete _ => .deleted

end Ctx

namespace Legacy

/-- Mongo achievement document as read and written by the legacy
`achievementRepository` (`src/app/repository/student_repository.go`), whose
`SoftDeleteMongo` sets the schemaless boolean `isDeleted` marker. -/
structure Achievement where
  id : String
  studentID : Nat
  achievementType : String
  title : String
  description : String
  tags : List String
  isDeleted : Bool
  createdAt : Nat
  updatedAt : Nat
deriving DecidableEq, Repr

/-- Reference row as manipulated by `src/app/service/achievement.go`, which
assigns `RejectionNote` a plain string (empty when unset). -/
structure AchievementReference where
  id : Nat
  studentID : Nat
  mongoAchievementID : String
  status : Status
  submittedAt : Option Nat
  verifiedAt : Option Nat
  verifiedBy : Option Nat
  rejectionNote : String
  createdAt : Nat
  updatedAt : Nat
deriving DecidableEq, Repr

/-- The two stores of the legacy generation. -/
structure DB where
  mongo : List (String × Achievement)
  refs : List (Nat × AchievementReference)
deriving DecidableEq, Repr

namespace Repo

/-- `achievementRepository.CreateMongo`: stamp `created_at`/`updated_at`,
`InsertOne`, record the generated ObjectID. -/
def CreateMongo (o : Oracle) (freshOid : String) (now : Nat) (db : DB) (a : Achievement) :
    Except String (DB × Achievement) :=
  if o.mongoInsertOk then
    let a2 := { a with id := freshOid, createdAt := now, updatedAt := now }
    .ok ({ db with mongo := (freshOid, a2) :: db.mongo }, a2)
  else .error "store unavailable: mongo insert"

/-- `achievementRepository.FindMongoByID`: the raw driver error is returned on
a missing document. -/
def FindMongoByID (db : DB) (oid : String) : Except String Achievement :=
  match findRow oid db.mongo with
  | some a => .ok a
  | none => .error "mongo: no documents in result"

/-- `achievementRepository.UpdateMongo`: `UpdateOne` with `$set` of the whole
struct — a full replace of every struct field (the schemaless `isDeleted`
marker is not a struct field and survives); zero matched documents is not an
error. -/
def UpdateMongo (o : Oracle) (now : Nat) (db : DB) (a : Achievement) :
    Except String DB :=
  if o.mongoUpdateOk then
    let m := updateRow a.id (fun old => { a with updatedAt := now, isDeleted := old.isDeleted }) db.mongo
    .ok { db with mongo := m }
  else .error "store unavailable: mongo update"

/-- `achievementRepository.SoftDeleteMongo`: `$set` of `isDeleted = true` and
`updatedAt`. -/
def SoftDeleteMongo (o : Oracle) (now : Nat) (db : DB) (oid : String) :
    Except String DB :=
  if o.mongoUpdateOk then
    let m := updateRow oid (fun a => { a with isDeleted := true, updatedAt := now }) db.mongo
    .ok { db with mongo := m }
  else .error "store unavailable: mongo update"

/-- `achievementRepository.CreateReference`: gorm `Create` of the struct. -/
def CreateReference (o : Oracle) (db : DB) (ref : AchievementReference) :
    Except String DB :=
  if o.refInsertOk then .ok { db with refs := (ref.id, ref) :: db.refs }
  else .error "store unavailable: ref insert"

/-- `achievementRepository.FindReferenceByID`: gorm `First`, whose missing-row
error is `record not found`. -/
def FindReferenceByID (db : DB) (id : Nat) : Except String AchievementReference :=
  match findRow id db.refs with
  | some r => .ok r
  | none => .error "record not found"

/-- `achievementRepository.UpdateReference`: gorm `Save` — update the row with
this primary key, creating it when absent. -/
def UpdateReference (o : Oracle) (db : DB) (ref : AchievementReference) :
    Except String DB :=
  if o.refUpdateOk then
    match findRow ref.id db.refs with
    | some _ => .ok { db with refs := updateRow ref.id (fun _ => ref) db.refs }
    | none => .ok { db with refs := (ref.id, ref) :: db.refs }
  else .error "store unavailable: ref update"

end Repo

/-- `achievementService.CreateAchievement` (`src/app/service/achievement.go`):
set the owner, insert into mongo, insert the draft reference.  On a
reference-insert failure the error is returned with NO compensating action —
the mongo document stays live. -/
def CreateAchievement (o : Oracle) (now : Nat) (freshOid : String) (freshRefId : Nat)
    (db : DB) (studentID : Nat) (achievement : Achievement) :
    Except String AchievementReference × DB :=
  let a0 := { achievement with studentID := studentID }
  match Repo.CreateMongo o freshOid now db a0 with
  | .error e => (.error e, db)
  | .ok (db1, a) =>
    let ref : AchievementReference :=
      { id := freshRefId, studentID := studentID, mongoAchievementID := a.id,
        status := .draft, submittedAt := none, verifiedAt := none,
        verifiedBy := none, rejectionNote := "", createdAt := now, updatedAt := now }
    match Repo.CreateReference o db1 ref with
    | .error e => (.error e, db1)
    | .ok db2 => (.ok ref, db2)

/-- `achievementService.UpdateAchievement` (`src/app/service/achievement.go`):
load reference, ownership check, draft-only check, then full replace of the
mongo document with the caller-supplied payload (only its `ID` is overwritten
with the stored mongo id before the write). -/
def UpdateAchievement (o : Oracle) (now : Nat) (db : DB) (id studentID : Nat)
    (achievement : Achievement) : Except String Unit × DB :=
  match Repo.FindReferenceByID db id with
  | .error e => (.error e, db)
  | .ok ref =>
    if ref.studentID ≠ studentID then
      (.error "unauthorized: not your achievement", db)
    else if ref.status ≠ Status.draft then
      (.error "only draft achievements can be updated", db)
    else
      match ObjectIDFromHex ref.mongoAchievementID with
      | none => (.error "invalid object id", db)
      | some oid =>
        match Repo.UpdateMongo o now db { achievement with id := oid } with
        | .error e => (.error e, db)
        | .ok db1 => (.ok (), db1)

/-- `achievementService.DeleteAchievement` (`src/app/service/achievement.go`):
ownership check, then status must be `draft` (its comment: only draft can be
deleted), soft-delete mongo, then save the reference with status `deleted`. -/
def DeleteAchievement (o : Oracle) (now : Nat) (db : DB) (id studentID : Nat) :
    Except String Unit × DB :=
  match Repo.FindReferenceByID db id with
  | .error e => (.error e, db)
  | .ok ref =>
    if ref.studentID ≠ studentID then
      (.error "unauthorized: not your achievement", db)
    else if ref.status ≠ Status.draft then
      (.error "only draft achievements can be deleted", db)
    else
      match ObjectIDFromHex ref.mongoAchievementID with
      | none => (.error "invalid object id", db)
      | some oid =>
        match Repo.SoftDeleteMongo o now db oid with
        | .error e => (.error e, db)
        | .ok db1 =>
          match Repo.UpdateReference o db1 { ref with status := .deleted } with
          | .error e => (.error e, db1)
          | .ok db2 => (.ok (), db2)

/-- `achievementService.SubmitForVerification` (`src/app/service/achievement.go`). -/
def SubmitForVerification (o : Oracle) (now : Nat) (db : DB) (id studentID : Nat) :
    Except String Unit × DB :=
  match Repo.FindReferenceByID db id with
  | .error e => (.error e, db)
  | .ok ref =>
    if ref.studentID ≠ studentID then
      (.error "unauthorized: not your achievement", db)
    else if ref.status ≠ Status.draft then
      (.error "only draft achievements can be submitted", db)
    else
      match Repo.UpdateReference o db
        { ref with status := .submitted, submittedAt := some now } with
      | .error e => (.error e, db)
      | .ok db1 => (.ok (), db1)

/-- `achievementService.VerifyAchievement` (`src/app/service/achievement.go`). -/
def VerifyAchievement (o : Oracle) (now : Nat) (db : DB) (id verifierID : Nat) :
    Except String Unit × DB :=
  match Repo.FindReferenceByID db id with
  | .error e => (.error e, db)
  | .ok ref =>
    if ref.status ≠ Status.submitted then
      (.error "only submitted achievements can be verified", db)
    else
      match Repo.UpdateReference o db
        { ref with status := .verified, verifiedAt := some now,
                   verifiedBy := some verifierID } with
      | .error e => (.error e, db)
      | .ok db1 => (.ok (), db1)

/-- `achievementService.RejectAchievement` (`src/app/service/achievement.go`):
sets status, `RejectionNote` and `VerifiedBy`; it does not touch
`VerifiedAt`. -/
def RejectAchievement (o : Oracle) (db : DB) (id verifierID : Nat) (note : String) :
    Except String Unit × DB :=
  match Repo.FindReferenceByID db id with
  | .error e => (.error e, db)
  | .ok ref =>
    if ref.status ≠ Status.submitted then
      (.error "only submitted achievements can be rejected", db)
    else
      match Repo.UpdateReference o db
        { ref with status := .rejected, rejectionNote := note,
                   verifiedBy := some verifierID } with
      | .error e => (.error e, db)
      | .ok db1 => (.ok (), db1)

/-- A lifecycle event for the legacy service (submit and delete carry the
acting student, matching the legacy signatures). -/
inductive LEvent where
  | submit (studentID : Nat)
  | verify (verifierID : Nat)
  | reject (verifierID : Nat) (note : String)
  | delete (studentID : Nat)
deriving DecidableEq, Repr

/-- Dispatch a lifecycle event to the legacy service operation embedding it. -/
def runEvent (o : Oracle) (now : Nat) (db : DB) (id : Nat) : LEvent → Except String Unit × DB
  | .submit sid => SubmitForVerification o now db id sid
  | .verify v => VerifyAchievement o now db id v
  | .reject v note => RejectAchievement o db id v note
  | .delete sid => DeleteAchievement o now db id sid

/-- The `From` column of §4.2's table, for legacy events. -/
def fromStates : LEvent → List Status
  | .submit _ => [.draft]
  | .verify _ => [.submitted]
  | .reject _ _ => [.submitted]
  | .delete _ => [.draft, .rejected]

/-- The `To` column of §4.2's table, for legacy events. -/
def toState : LEvent → Status
  | .submit _ => .submitted
  | .verify _ => .verified
  | .reject _ _ => .rejected
  | .delete _ => .deleted

end Legacy

section ListLemmas

theorem mem_insertDesc (a r : Ctx.AchievementReference) :
    ∀ l, a ∈ Ctx.Repo.insertDesc r l ↔ a = r ∨ a ∈ l := by
  intro l
  induction l with
  | nil => simp [Ctx.Repo.insertDesc]
  | cons x xs ih =>
    by_cases h : x.createdAt ≤ r.createdAt
    · simp [Ctx.Repo.insertDesc, h]
    · simp [Ctx.Repo.insertDesc, h, ih]
      tauto

theorem mem_sortByCreatedDesc (a : Ctx.AchievementReference) :
    ∀ l, a ∈ Ctx.Repo.sortByCreatedDesc l ↔ a ∈ l := by
  intro l
  induction l with
  | nil => simp [Ctx.Repo.sortByCreatedDesc]
  | cons x xs ih =>
    simp [Ctx.Repo.sortByCreatedDesc, mem_insertDesc, ih]

theorem mem_of_mem_applyPage (a : Ctx.AchievementReference) (limit offset : Nat)
    (l : List Ctx.AchievementReference) (h : a ∈ Ctx.Repo.applyPage limit offset l) :
    a ∈ l := by
  unfold Ctx.Repo.applyPage at h
  exact List.drop_subset offset l (List.take_subset limit _ h)

end ListLemmas

section CtxLemmas

/-- Loading a present reference succeeds. -/
theorem ctx_get_ref_found {db : Ctx.DB} {id : Nat} {ref : Ctx.AchievementReference}
    (hfind : findRow id db.refs = some ref) :
    Ctx.Repo.GetReferenceByID db id = .ok ref := by
  simp [Ctx.Repo.GetReferenceByID, hfind]

theorem ctx_submit_not_draft {o : Oracle} {now : Nat} {db : Ctx.DB} {id : Nat}
    {ref : Ctx.AchievementReference} (hfind : findRow id db.refs = some ref)
    (h : ref.status ≠ Status.draft) :
    Ctx.SubmitForVerification o now db id =
      (.error "only draft achievements can be submitted", db) := by
  simp [Ctx.SubmitForVerification, ctx_get_ref_found hfind, h]

theorem ctx_submit_draft {o : Oracle} {now : Nat} {db : Ctx.DB} {id : Nat}
    {ref : Ctx.AchievementReference} (hfind : findRow id db.refs = some ref)
    (h : ref.status = Status.draft) (hok : o.refUpdateOk = true) :
    Ctx.SubmitForVerification o now db id =
      (.ok (), { db with refs := updateRow id (Ctx.Repo.updateStatusRow now .submitted none none) db.refs }) := by
  simp [Ctx.SubmitForVerification, ctx_get_ref_found hfind, h,
    Ctx.Repo.UpdateStatus, hok, hfind]

theorem ctx_verify_not_submitted {o : Oracle} {now : Nat} {db : Ctx.DB} {id v : Nat}
    {ref : Ctx.AchievementReference} (hfind : findRow id db.refs = some ref)
    (h : ref.status ≠ Status.submitted) :
    Ctx.VerifyAchievement o now db id v =
      (.error "achievement is not in submitted state", db) := by
  simp [Ctx.VerifyAchievement, ctx_get_ref_found hfind, h]

theorem ctx_verify_submitted {o : Oracle} {now : Nat} {db : Ctx.DB} {id v : Nat}
    {ref : Ctx.AchievementReference} (hfind : findRow id db.refs = some ref)
    (h : ref.status = Status.submitted) (hok : o.refUpdateOk = true) :
    Ctx.VerifyAchievement o now db id v =
      (.ok (), { db with refs := updateRow id (Ctx.Repo.updateStatusRow now .verified (some v) none) db.refs }) := by
  simp [Ctx.VerifyAchievement, ctx_get_ref_found hfind, h,
    Ctx.Repo.UpdateStatus, hok, hfind]

theorem ctx_reject_not_submitted {o : Oracle} {now : Nat} {db : Ctx.DB} {id v : Nat}
    {note : String} {ref : Ctx.AchievementReference}
    (hfind : findRow id db.refs = some ref) (h : ref.status ≠ Status.submitted) :
    Ctx.RejectAchievement o now db id v note =
      (.error "achievement is not in submitted state", db) := by
  simp [Ctx.RejectAchievement, ctx_get_ref_found hfind, h]

theorem ctx_reject_submitted {o : Oracle} {now : Nat} {db : Ctx.DB} {id v : Nat}
    {note : String} {ref : Ctx.AchievementReference}
    (hfind : findRow id db.refs = some ref) (h : ref.status = Status.submitted)
    (hok : o.refUpdateOk = true) :
    Ctx.RejectAchievement o now db id v note =
      (.ok (), { db with refs := updateRow id (Ctx.Repo.updateStatusRow now .rejected (some v) (some note)) db.refs }) := by
  simp [Ctx.RejectAchievement, ctx_get_ref_found hfind, h,
    Ctx.Repo.UpdateStatus, hok, hfind]

theorem ctx_delete_not_owner {o : Oracle} {now : Nat} {db : Ctx.DB} {id sid : Nat}
    {ref : Ctx.AchievementReference} (hfind : findRow id db.refs = some ref)
    (h : ref.studentID ≠ sid) :
    Ctx.DeleteAchievement o now db id sid =
      (.error "unauthorized: you do not own this achievement", db) := by
  simp [Ctx.DeleteAchievement, ctx_get_ref_found hfind, h]

theorem ctx_delete_bad_status {o : Oracle} {now : Nat} {db : Ctx.DB} {id sid : Nat}
    {ref : Ctx.AchievementReference} (hfind : findRow id db.refs = some ref)
    (howner : ref.studentID = sid) (h1 : ref.status ≠ Status.draft)
    (h2 : ref.status ≠ Status.rejected) :
    Ctx.DeleteAchievement o now db id sid =
      (.error "cannot delete achievement that is under review or verified", db) := by
  simp [Ctx.DeleteAchievement, ctx_get_ref_found hfind, howner, h1, h2]

theorem ctx_delete_ok {o : Oracle} {now : Nat} {db : Ctx.DB} {id sid : Nat}
    {ref : Ctx.AchievementReference} {oid : String}
    (hfind : findRow id db.refs = some ref) (howner : ref.studentID = sid)
    (hst : ref.status = Status.draft ∨ ref.status = Status.rejected)
    (hoid : ObjectIDFromHex ref.mongoAchievementID = some oid)
    (hmo : o.mongoUpdateOk = true) (hro : o.refUpdateOk = true) :
    Ctx.DeleteAchievement o now db id sid =
      (.ok (), { mongo := updateRow oid (fun a => { a with deletedAt := some now }) db.mongo, refs := updateRow id (Ctx.Repo.updateStatusRow now .deleted none none) db.refs }) := by
  rcases hst with h | h <;>
    simp [Ctx.DeleteAchievement, ctx_get_ref_found hfind, howner, h, hoid,
      Ctx.Repo.SoftDeleteAchievement, hmo, Ctx.Repo.UpdateStatus, hro, hfind]

theorem ctx_delete_mongo_fail {o : Oracle} {now : Nat} {db : Ctx.DB} {id sid : Nat}
    {ref : Ctx.AchievementReference} {oid : String}
    (hfind : findRow id db.refs = some ref) (howner : ref.studentID = sid)
    (hst : ref.status = Status.draft ∨ ref.status = Status.rejected)
    (hoid : ObjectIDFromHex ref.mongoAchievementID = some oid)
    (hmo : o.mongoUpdateOk = false) :
    Ctx.DeleteAchievement o now db id sid =
      (.error "store unavailable: mongo update", db) := by
  rcases hst with h | h <;>
    simp [Ctx.DeleteAchievement, ctx_get_ref_found hfind, howner, h, hoid,
      Ctx.Repo.SoftDeleteAchievement, hmo]

theorem ctx_delete_ref_fail {o : Oracle} {now : Nat} {db : Ctx.DB} {id sid : Nat}
    {ref : Ctx.AchievementReference} {oid : String}
    (hfind : findRow id db.refs = some ref) (howner : ref.studentID = sid)
    (hst : ref.status = Status.draft ∨ ref.status = Status.rejected)
    (hoid : ObjectIDFromHex ref.mongoAchievementID = some oid)
    (hmo : o.mongoUpdateOk = true) (hro : o.refUpdateOk = false) :
    Ctx.DeleteAchievement o now db id sid =
      (.error "store unavailable: ref update", { mongo := updateRow oid (fun a => { a with deletedAt := some now }) db.mongo, refs := db.refs }) := by
  rcases hst with h | h <;>
    simp [Ctx.DeleteAchievement, ctx_get_ref_found hfind, howner, h, hoid,
      Ctx.Repo.SoftDeleteAchievement, hmo, Ctx.Repo.UpdateStatus, hro]

theorem ctx_get_ref_absent {db : Ctx.DB} {id : Nat}
    (hfind : findRow id db.refs = none) :
    Ctx.Repo.GetReferenceByID db id = .error "reference not found" := by
  simp [Ctx.Repo.GetReferenceByID, hfind]

theorem ctx_submit_absent {o : Oracle} {now : Nat} {db : Ctx.DB} {id : Nat}
    (hfind : findRow id db.refs = none) :
    Ctx.SubmitForVerification o now db id = (.error "reference not found", db) := by
  simp [Ctx.SubmitForVerification, ctx_get_ref_absent hfind]

theorem ctx_submit_store_fail {o : Oracle} {now : Nat} {db : Ctx.DB} {id : Nat}
    {ref : Ctx.AchievementReference} (hfind : findRow id db.refs = some ref)
    (h : ref.status = Status.draft) (hok : o.refUpdateOk = false) :
    Ctx.SubmitForVerification o now db id =
      (.error "store unavailable: ref update", db) := by
  simp [Ctx.SubmitForVerification, ctx_get_ref_found hfind, h,
    Ctx.Repo.UpdateStatus, hok]

theorem ctx_verify_absent {o : Oracle} {now : Nat} {db : Ctx.DB} {id v : Nat}
    (hfind : findRow id db.refs = none) :
    Ctx.VerifyAchievement o now db id v = (.error "reference not found", db) := by
  simp [Ctx.VerifyAchievement, ctx_get_ref_absent hfind]

theorem ctx_verify_store_fail {o : Oracle} {now : Nat} {db : Ctx.DB} {id v : Nat}
    {ref : Ctx.AchievementReference} (hfind : findRow id db.refs = some ref)
    (h : ref.status = Status.submitted) (hok : o.refUpdateOk = false) :
    Ctx.VerifyAchievement o now db id v =
      (.error "store unavailable: ref update", db) := by
  simp [Ctx.VerifyAchievement, ctx_get_ref_found hfind, h,
    Ctx.Repo.UpdateStatus, hok]

theorem ctx_reject_absent {o : Oracle} {now : Nat} {db : Ctx.DB} {id v : Nat}
    {note : String} (hfind : findRow id db.refs = none) :
    Ctx.RejectAchievement o now db id v note = (.error "reference not found", db) := by
  simp [Ctx.RejectAchievement, ctx_get_ref_absent hfind]

theorem ctx_reject_store_fail {o : Oracle} {now : Nat} {db : Ctx.DB} {id v : Nat}
    {note : String} {ref : Ctx.AchievementReference}
    (hfind : findRow id db.refs = some ref) (h : ref.status = Status.submitted)
    (hok : o.refUpdateOk = false) :
    Ctx.RejectAchievement o now db id v note =
      (.error "store unavailable: ref update", db) := by
  simp [Ctx.RejectAchievement, ctx_get_ref_found hfind, h,
    Ctx.Repo.UpdateStatus, hok]

theorem ctx_delete_absent {o : Oracle} {now : Nat} {db : Ctx.DB} {id sid : Nat}
    (hfind : findRow id db.refs = none) :
    Ctx.DeleteAchievement o now db id sid = (.error "reference not found", db) := by
  simp [Ctx.DeleteAchievement, ctx_get_ref_absent hfind]

theorem ctx_delete_bad_hex {o : Oracle} {now : Nat} {db : Ctx.DB} {id sid : Nat}
    {ref : Ctx.AchievementReference} (hfind : findRow id db.refs = some ref)
    (howner : ref.studentID = sid)
    (hst : ref.status = Status.draft ∨ ref.status = Status.rejected)
    (hoid : ObjectIDFromHex ref.mongoAchievementID = none) :
    Ctx.DeleteAchievement o now db id sid = (.error "invalid object id", db) := by
  rcases hst with h | h <;>
    simp [Ctx.DeleteAchievement, ctx_get_ref_found hfind, howner, h, hoid]

theorem ctx_submit_ok_inv {o : Oracle} {now : Nat} {db : Ctx.DB} {id : Nat}
    (h : (Ctx.SubmitForVerification o now db id).fst = .ok ()) :
    ∃ ref, findRow id db.refs = some ref ∧ ref.status = Status.draft ∧
      o.refUpdateOk = true := by
  cases hf : findRow id db.refs with
  | none =>
    rw [ctx_submit_absent hf] at h
    simp at h
  | some ref =>
    by_cases hs : ref.status = Status.draft
    · cases hok : o.refUpdateOk with
      | false =>
        rw [ctx_submit_store_fail hf hs hok] at h
        simp at h
      | true => exact ⟨ref, rfl, hs, rfl⟩
    · rw [ctx_submit_not_draft hf hs] at h
      simp at h

theorem ctx_verify_ok_inv {o : Oracle} {now : Nat} {db : Ctx.DB} {id v : Nat}
    (h : (Ctx.VerifyAchievement o now db id v).fst = .ok ()) :
    ∃ ref, findRow id db.refs = some ref ∧ ref.status = Status.submitted ∧
      o.refUpdateOk = true := by
  cases hf : findRow id db.refs with
  | none =>
    rw [ctx_verify_absent hf] at h
    simp at h
  | some ref =>
    by_cases hs : ref.status = Status.submitted
    · cases hok : o.refUpdateOk with
      | false =>
        rw [ctx_verify_store_fail hf hs hok] at h
        simp at h
      | true => exact ⟨ref, rfl, hs, rfl⟩
    · rw [ctx_verify_not_submitted hf hs] at h
      simp at h

theorem ctx_reject_ok_inv {o : Oracle} {now : Nat} {db : Ctx.DB} {id v : Nat}
    {note : String} (h : (Ctx.RejectAchievement o now db id v note).fst = .ok ()) :
    ∃ ref, findRow id db.refs = some ref ∧ ref.status = Status.submitted ∧
      o.refUpdateOk = true := by
  cases hf : findRow id db.refs with
  | none =>
    rw [ctx_reject_absent hf] at h
    simp at h
  | some ref =>
    by_cases hs : ref.status = Status.submitted
    · cases hok : o.refUpdateOk with
      | false =>
        rw [ctx_reject_store_fail hf hs hok] at h
        simp at h
      | true => exact ⟨ref, rfl, hs, rfl⟩
    · rw [ctx_reject_not_submitted hf hs] at h
      simp at h

theorem ctx_delete_ok_inv {o : Oracle} {now : Nat} {db : Ctx.DB} {id sid : Nat}
    (h : (Ctx.DeleteAchievement o now db id sid).fst = .ok ()) :
    ∃ ref oid, findRow id db.refs = some ref ∧ ref.studentID = sid ∧
      (ref.status = Status.draft ∨ ref.status = Status.rejected) ∧
      ObjectIDFromHex ref.mongoAchievementID = some oid ∧
      o.mongoUpdateOk = true ∧ o.refUpdateOk = true := by
  cases hf : findRow id db.refs with
  | none =>
    rw [ctx_delete_absent hf] at h
    simp at h
  | some ref =>
    by_cases howner : ref.studentID = sid
    · by_cases h1 : ref.status = Status.draft
      · cases hoid : ObjectIDFromHex ref.mongoAchievementID with
        | none =>
          rw [ctx_delete_bad_hex hf howner (Or.inl h1) hoid] at h
          simp at h
        | some oid =>
          cases hmo : o.mongoUpdateOk with
          | false =>
            rw [ctx_delete_mongo_fail hf howner (Or.inl h1) hoid hmo] at h
            simp at h
          | true =>
            cases hro : o.refUpdateOk with
            | false =>
              rw [ctx_delete_ref_fail hf howner (Or.inl h1) hoid hmo hro] at h
              simp at h
            | true => exact ⟨ref, oid, rfl, howner, Or.inl h1, hoid, rfl, rfl⟩
      · by_cases h2 : ref.status = Status.rejected
        · cases hoid : ObjectIDFromHex ref.mongoAchievementID with
          | none =>
            rw [ctx_delete_bad_hex hf howner (Or.inr h2) hoid] at h
            simp at h
          | some oid =>
            cases hmo : o.mongoUpdateOk with
            | false =>
              rw [ctx_delete_mongo_fail hf howner (Or.inr h2) hoid hmo] at h
              simp at h
            | true =>
              cases hro : o.refUpdateOk with
              | false =>
                rw [ctx_delete_ref_fail hf howner (Or.inr h2) hoid hmo hro] at h
                simp at h
              | true => exact ⟨ref, oid, rfl, howner, Or.inr h2, hoid, rfl, rfl⟩
        · rw [ctx_delete_bad_status hf howner h1 h2] at h
          simp at h
    · rw [ctx_delete_not_owner hf howner] at h
      simp at h

end CtxLemmas

section LegacyLemmas

theorem legacy_get_ref_found {db : Legacy.DB} {id : Nat}
    {ref : Legacy.AchievementReference} (hfind : findRow id db.refs = some ref) :
    Legacy.Repo.FindReferenceByID db id = .ok ref := by
  simp [Legacy.Repo.FindReferenceByID, hfind]

theorem legacy_get_ref_absent {db : Legacy.DB} {id : Nat}
    (hfind : findRow id db.refs = none) :
    Legacy.Repo.FindReferenceByID db id = .error "record not found" := by
  simp [Legacy.Repo.FindReferenceByID, hfind]

theorem legacy_submit_absent {o : Oracle} {now : Nat} {db : Legacy.DB} {id sid : Nat}
    (hfind : findRow id db.refs = none) :
    Legacy.SubmitForVerification o now db id sid = (.error "record not found", db) := by
  simp [Legacy.SubmitForVerification, legacy_get_ref_absent hfind]

theorem legacy_submit_not_owner {o : Oracle} {now : Nat} {db : Legacy.DB} {id sid : Nat}
    {ref : Legacy.AchievementReference} (hfind : findRow id db.refs = some ref)
    (h : ref.studentID ≠ sid) :
    Legacy.SubmitForVerification o now db id sid =
      (.error "unauthorized: not your achievement", db) := by
  simp [Legacy.SubmitForVerification, legacy_get_ref_found hfind, h]

theorem legacy_submit_not_draft {o : Oracle} {now : Nat} {db : Legacy.DB} {id sid : Nat}
    {ref : Legacy.AchievementReference} (hfind : findRow id db.refs = some ref)
    (howner : ref.studentID = sid) (h : ref.status ≠ Status.draft) :
    Legacy.SubmitForVerification o now db id sid =
      (.error "only draft achievements can be submitted", db) := by
  simp [Legacy.SubmitForVerification, legacy_get_ref_found hfind, howner, h]

theorem legacy_submit_ok {o : Oracle} {now : Nat} {db : Legacy.DB} {id sid : Nat}
    {ref : Legacy.AchievementReference} (hfind : findRow id db.refs = some ref)
    (hid : ref.id = id) (howner : ref.studentID = sid) (h : ref.status = Status.draft)
    (hok : o.refUpdateOk = true) :
    Legacy.SubmitForVerification o now db id sid =
      (.ok (), { db with refs := updateRow id (fun _ => { ref with status := .submitted, submittedAt := some now }) db.refs }) := by
  simp [Legacy.SubmitForVerification, legacy_get_ref_found hfind, howner, h,
    Legacy.Repo.UpdateReference, hok, hid, hfind]

theorem legacy_submit_store_fail {o : Oracle} {now : Nat} {db : Legacy.DB} {id sid : Nat}
    {ref : Legacy.AchievementReference} (hfind : findRow id db.refs = some ref)
    (howner : ref.studentID = sid) (h : ref.status = Status.draft)
    (hok : o.refUpdateOk = false) :
    Legacy.SubmitForVerification o now db id sid =
      (.error "store unavailable: ref update", db) := by
  simp [Legacy.SubmitForVerification, legacy_get_ref_found hfind, howner, h,
    Legacy.Repo.UpdateReference, hok]

theorem legacy_verify_absent {o : Oracle} {now : Nat} {db : Legacy.DB} {id v : Nat}
    (hfind : findRow id db.refs = none) :
    Legacy.VerifyAchievement o now db id v = (.error "record not found", db) := by
  simp [Legacy.VerifyAchievement, legacy_get_ref_absent hfind]

theorem legacy_verify_not_submitted {o : Oracle} {now : Nat} {db : Legacy.DB} {id v : Nat}
    {ref : Legacy.AchievementReference} (hfind : findRow id db.refs = some ref)
    (h : ref.status ≠ Status.submitted) :
    Legacy.VerifyAchievement o now db id v =
      (.error "only submitted achievements can be verified", db) := by
  simp [Legacy.VerifyAchievement, legacy_get_ref_found hfind, h]

theorem legacy_verify_ok {o : Oracle} {now : Nat} {db : Legacy.DB} {id v : Nat}
    {ref : Legacy.AchievementReference} (hfind : findRow id db.refs = some ref)
    (hid : ref.id = id) (h : ref.status = Status.submitted) (hok : o.refUpdateOk = true) :
    Legacy.VerifyAchievement o now db id v =
      (.ok (), { db with refs := updateRow id (fun _ => { ref with status := .verified, verifiedAt := some now, verifiedBy := some v }) db.refs }) := by
  simp [Legacy.VerifyAchievement, legacy_get_ref_found hfind, h,
    Legacy.Repo.UpdateReference, hok, hid, hfind]

theorem legacy_verify_store_fail {o : Oracle} {now : Nat} {db : Legacy.DB} {id v : Nat}
    {ref : Legacy.AchievementReference} (hfind : findRow id db.refs = some ref)
    (h : ref.status = Status.submitted) (hok : o.refUpdateOk = false) :
    Legacy.VerifyAchievement o now db id v =
      (.error "store unavailable: ref update", db) := by
  simp [Legacy.VerifyAchievement, legacy_get_ref_found hfind, h,
    Legacy.Repo.UpdateReference, hok]

theorem legacy_reject_absent {o : Oracle} {db : Legacy.DB} {id v : Nat} {note : String}
    (hfind : findRow id db.refs = none) :
    Legacy.RejectAchievement o db id v note = (.error "record not found", db) := by
  simp [Legacy.RejectAchievement, legacy_get_ref_absent hfind]

theorem legacy_reject_not_submitted {o : Oracle} {db : Legacy.DB} {id v : Nat}
    {note : String} {ref : Legacy.AchievementReference}
    (hfind : findRow id db.refs = some ref) (h : ref.status ≠ Status.submitted) :
    Legacy.RejectAchievement o db id v note =
      (.error "only submitted achievements can be rejected", db) := by
  simp [Legacy.RejectAchievement, legacy_get_ref_found hfind, h]

theorem legacy_reject_ok {o : Oracle} {db : Legacy.DB} {id v : Nat} {note : String}
    {ref : Legacy.AchievementReference} (hfind : findRow id db.refs = some ref)
    (hid : ref.id = id) (h : ref.status = Status.submitted) (hok : o.refUpdateOk = true) :
    Legacy.RejectAchievement o db id v note =
      (.ok (), { db with refs := updateRow id (fun _ => { ref with status := .rejected, rejectionNote := note, verifiedBy := some v }) db.refs }) := by
  simp [Legacy.RejectAchievement, legacy_get_ref_found hfind, h,
    Legacy.Repo.UpdateReference, hok, hid, hfind]

theorem legacy_reject_store_fail {o : Oracle} {db : Legacy.DB} {id v : Nat}
    {note : String} {ref : Legacy.AchievementReference}
    (hfind : findRow id db.refs = some ref) (h : ref.status = Status.submitted)
    (hok : o.refUpdateOk = false) :
    Legacy.RejectAchievement o db id v note =
      (.error "store unavailable: ref update", db) := by
  simp [Legacy.RejectAchievement, legacy_get_ref_found hfind, h,
    Legacy.Repo.UpdateReference, hok]

theorem legacy_delete_absent {o : Oracle} {now : Nat} {db : Legacy.DB} {id sid : Nat}
    (hfind : findRow id db.refs = none) :
    Legacy.DeleteAchievement o now db id sid = (.error "record not found", db) := by
  simp [Legacy.DeleteAchievement, legacy_get_ref_absent hfind]

theorem legacy_delete_not_owner {o : Oracle} {now : Nat} {db : Legacy.DB} {id sid : Nat}
    {ref : Legacy.AchievementReference} (hfind : findRow id db.refs = some ref)
    (h : ref.studentID ≠ sid) :
    Legacy.DeleteAchievement o now db id sid =
      (.error "unauthorized: not your achievement", db) := by
  simp [Legacy.DeleteAchievement, legacy_get_ref_found hfind, h]

theorem legacy_delete_not_draft {o : Oracle} {now : Nat} {db : Legacy.DB} {id sid : Nat}
    {ref : Legacy.AchievementReference} (hfind : findRow id db.refs = some ref)
    (howner : ref.studentID = sid) (h : ref.status ≠ Status.draft) :
    Legacy.DeleteAchievement o now db id sid =
      (.error "only draft achievements can be deleted", db) := by
  simp [Legacy.DeleteAchievement, legacy_get_ref_found hfind, howner, h]

theorem legacy_delete_bad_hex {o : Oracle} {now : Nat} {db : Legacy.DB} {id sid : Nat}
    {ref : Legacy.AchievementReference} (hfind : findRow id db.refs = some ref)
    (howner : ref.studentID = sid) (h : ref.status = Status.draft)
    (hoid : ObjectIDFromHex ref.mongoAchievementID = none) :
    Legacy.DeleteAchievement o now db id sid = (.error "invalid object id", db) := by
  simp [Legacy.DeleteAchievement, legacy_get_ref_found hfind, howner, h, hoid]

theorem legacy_delete_mongo_fail {o : Oracle} {now : Nat} {db : Legacy.DB} {id sid : Nat}
    {ref : Legacy.AchievementReference} {oid : String}
    (hfind : findRow id db.refs = some ref) (howner : ref.studentID = sid)
    (h : ref.status = Status.draft)
    (hoid : ObjectIDFromHex ref.mongoAchievementID = some oid)
    (hmo : o.mongoUpdateOk = false) :
    Legacy.DeleteAchievement o now db id sid =
      (.error "store unavailable: mongo update", db) := by
  simp [Legacy.DeleteAchievement, legacy_get_ref_found hfind, howner, h, hoid,
    Legacy.Repo.SoftDeleteMongo, hmo]

theorem legacy_delete_ref_fail {o : Oracle} {now : Nat} {db : Legacy.DB} {id sid : Nat}
    {ref : Legacy.AchievementReference} {oid : String}
    (hfind : findRow id db.refs = some ref) (howner : ref.studentID = sid)
    (h : ref.status = Status.draft)
    (hoid : ObjectIDFromHex ref.mongoAchievementID = some oid)
    (hmo : o.mongoUpdateOk = true) (hro : o.refUpdateOk = false) :
    Legacy.DeleteAchievement o now db id sid =
      (.error "store unavailable: ref update", { mongo := updateRow oid (fun a => { a with isDeleted := true, updatedAt := now }) db.mongo, refs := db.refs }) := by
  simp [Legacy.DeleteAchievement, legacy_get_ref_found hfind, howner, h, hoid,
    Legacy.Repo.SoftDeleteMongo, hmo, Legacy.Repo.UpdateReference, hro]

theorem legacy_delete_ok {o : Oracle} {now : Nat} {db : Legacy.DB} {id sid : Nat}
    {ref : Legacy.AchievementReference} {oid : String}
    (hfind : findRow id db.refs = some ref) (hid : ref.id = id)
    (howner : ref.studentID = sid) (h : ref.status = Status.draft)
    (hoid : ObjectIDFromHex ref.mongoAchievementID = some oid)
    (hmo : o.mongoUpdateOk = true) (hro : o.refUpdateOk = true) :
    Legacy.DeleteAchievement o now db id sid =
      (.ok (), { mongo := updateRow oid (fun a => { a with isDeleted := true, updatedAt := now }) db.mongo, refs := updateRow id (fun _ => { ref with status := .deleted }) db.refs }) := by
  simp [Legacy.DeleteAchievement, legacy_get_ref_found hfind, howner, h, hoid,
    Legacy.Repo.SoftDeleteMongo, hmo, Legacy.Repo.UpdateReference, hro, hid, hfind]

theorem legacy_update_absent {o : Oracle} {now : Nat} {db : Legacy.DB} {id sid : Nat}
    {payload : Legacy.Achievement} (hfind : findRow id db.refs = none) :
    Legacy.UpdateAchievement o now db id sid payload = (.error "record not found", db) := by
  simp [Legacy.UpdateAchievement, legacy_get_ref_absent hfind]

theorem legacy_update_not_owner {o : Oracle} {now : Nat} {db : Legacy.DB} {id sid : Nat}
    {payload : Legacy.Achievement} {ref : Legacy.AchievementReference}
    (hfind : findRow id db.refs = some ref) (h : ref.studentID ≠ sid) :
    Legacy.UpdateAchievement o now db id sid payload =
      (.error "unauthorized: not your achievement", db) := by
  simp [Legacy.UpdateAchievement, legacy_get_ref_found hfind, h]

theorem legacy_update_not_draft {o : Oracle} {now : Nat} {db : Legacy.DB} {id sid : Nat}
    {payload : Legacy.Achievement} {ref : Legacy.AchievementReference}
    (hfind : findRow id db.refs = some ref) (howner : ref.studentID = sid)
    (h : ref.status ≠ Status.draft) :
    Legacy.UpdateAchievement o now db id sid payload =
      (.error "only draft achievements can be updated", db) := by
  simp [Legacy.UpdateAchievement, legacy_get_ref_found hfind, howner, h]

theorem legacy_update_ok {o : Oracle} {now : Nat} {db : Legacy.DB} {id sid : Nat}
    {payload : Legacy.Achievement} {ref : Legacy.AchievementReference} {oid : String}
    (hfind : findRow id db.refs = some ref) (howner : ref.studentID = sid)
    (h : ref.status = Status.draft)
    (hoid : ObjectIDFromHex ref.mongoAchievementID = some oid)
    (hmo : o.mongoUpdateOk = true) :
    Legacy.UpdateAchievement o now db id sid payload =
      (.ok (), { mongo := updateRow oid (fun old => { payload with id := oid, updatedAt := now, isDeleted := old.isDeleted }) db.mongo, refs := db.refs }) := by
  simp [Legacy.UpdateAchievement, legacy_get_ref_found hfind, howner, h, hoid,
    Legacy.Repo.UpdateMongo, hmo]

theorem legacy_update_mongo_fail {o : Oracle} {now : Nat} {db : Legacy.DB} {id sid : Nat}
    {payload : Legacy.Achievement} {ref : Legacy.AchievementReference} {oid : String}
    (hfind : findRow id db.refs = some ref) (howner : ref.studentID = sid)
    (h : ref.status = Status.draft)
    (hoid : ObjectIDFromHex ref.mongoAchievementID = some oid)
    (hmo : o.mongoUpdateOk = false) :
    Legacy.UpdateAchievement o now db id sid payload =
      (.error "store unavailable: mongo update", db) := by
  simp [Legacy.UpdateAchievement, legacy_get_ref_found hfind, howner, h, hoid,
    Legacy.Repo.UpdateMongo, hmo]

theorem legacy_submit_ok_inv {o : Oracle} {now : Nat} {db : Legacy.DB} {id sid : Nat}
    (h : (Legacy.SubmitForVerification o now db id sid).fst = .ok ()) :
    ∃ ref, findRow id db.refs = some ref ∧ ref.studentID = sid ∧
      ref.status = Status.draft ∧ o.refUpdateOk = true := by
  cases hf : findRow id db.refs with
  | none =>
    rw [legacy_submit_absent hf] at h
    simp at h
  | some ref =>
    by_cases howner : ref.studentID = sid
    · by_cases hs : ref.status = Status.draft
      · cases hok : o.refUpdateOk with
        | false =>
          rw [legacy_submit_store_fail hf howner hs hok] at h
          simp at h
        | true => exact ⟨ref, rfl, howner, hs, rfl⟩
      · rw [legacy_submit_not_draft hf howner hs] at h
        simp at h
    · rw [legacy_submit_not_owner hf howner] at h
      simp at h

theorem legacy_verify_ok_inv {o : Oracle} {now : Nat} {db : Legacy.DB} {id v : Nat}
    (h : (Legacy.VerifyAchievement o now db id v).fst = .ok ()) :
    ∃ ref, findRow id db.refs = some ref ∧ ref.status = Status.submitted ∧
      o.refUpdateOk = true := by
  cases hf : findRow id db.refs with
  | none =>
    rw [legacy_verify_absent hf] at h
    simp at h
  | some ref =>
    by_cases hs : ref.status = Status.submitted
    · cases hok : o.refUpdateOk with
      | false =>
        rw [legacy_verify_store_fail hf hs hok] at h
        simp at h
      | true => exact ⟨ref, rfl, hs, rfl⟩
    · rw [legacy_verify_not_submitted hf hs] at h
      simp at h

theorem legacy_reject_ok_inv {o : Oracle} {db : Legacy.DB} {id v : Nat} {note : String}
    (h : (Legacy.RejectAchievement o db id v note).fst = .ok ()) :
    ∃ ref, findRow id db.refs = some ref ∧ ref.status = Status.submitted ∧
      o.refUpdateOk = true := by
  cases hf : findRow id db.refs with
  | none =>
    rw [legacy_reject_absent hf] at h
    simp at h
  | some ref =>
    by_cases hs : ref.status = Status.submitted
    · cases hok : o.refUpdateOk with
      | false =>
        rw [legacy_reject_store_fail hf hs hok] at h
        simp at h
      | true => exact ⟨ref, rfl, hs, rfl⟩
    · rw [legacy_reject_not_submitted hf hs] at h
      simp at h

theorem legacy_delete_ok_inv {o : Oracle} {now : Nat} {db : Legacy.DB} {id sid : Nat}
    (h : (Legacy.DeleteAchievement o now db id sid).fst = .ok ()) :
    ∃ ref oid, findRow id db.refs = some ref ∧ ref.studentID = sid ∧
      ref.status = Status.draft ∧
      ObjectIDFromHex ref.mongoAchievementID = some oid ∧
      o.mongoUpdateOk = true ∧ o.refUpdateOk = true := by
  cases hf : findRow id db.refs with
  | none =>
    rw [legacy_delete_absent hf] at h
    simp at h
  | some ref =>
    by_cases howner : ref.studentID = sid
    · by_cases hs : ref.status = Status.draft
      · cases hoid : ObjectIDFromHex ref.mongoAchievementID with
        | none =>
          rw [legacy_delete_bad_hex hf howner hs hoid] at h
          simp at h
        | some oid =>
          cases hmo : o.mongoUpdateOk with
          | false =>
            rw [legacy_delete_mongo_fail hf howner hs hoid hmo] at h
            simp at h
          | true =>
            cases hro : o.refUpdateOk with
            | false =>
              rw [legacy_delete_ref_fail hf howner hs hoid hmo hro] at h
              simp at h
            | true => exact ⟨ref, oid, rfl, howner, hs, hoid, rfl, rfl⟩
      · rw [legacy_delete_not_draft hf howner hs] at h
        simp at h
    · rw [legacy_delete_not_owner hf howner] at h
      simp at h

theorem legacy_update_ok_inv {o : Oracle} {now : Nat} {db : Legacy.DB} {id sid : Nat}
    {payload : Legacy.Achievement}
    (h : (Legacy.UpdateAchievement o now db id sid payload).fst = .ok ()) :
    ∃ ref oid, findRow id db.refs = some ref ∧ ref.studentID = sid ∧
      ref.status = Status.draft ∧
      ObjectIDFromHex ref.mongoAchievementID = some oid ∧
      o.mongoUpdateOk = true := by
  cases hf : findRow id db.refs with
  | none =>
    rw [legacy_update_absent hf] at h
    simp at h
  | some ref =>
    by_cases howner : ref.studentID = sid
    · by_cases hs : ref.status = Status.draft
      · cases hoid : ObjectIDFromHex ref.mongoAchievementID with
        | none =>
          have : Legacy.UpdateAchievement o now db id sid payload =
              (.error "invalid object id", db) := by
            simp [Legacy.UpdateAchievement, legacy_get_ref_found hf, howner, hs, hoid]
          rw [this] at h
          simp at h
        | some oid =>
          cases hmo : o.mongoUpdateOk with
          | false =>
            rw [legacy_update_mongo_fail hf howner hs hoid hmo] at h
            simp at h
          | true => exact ⟨ref, oid, rfl, howner, hs, hoid, rfl⟩
      · rw [legacy_update_not_draft hf howner hs] at h
        simp at h
    · rw [legacy_update_not_owner hf howner] at h
      simp at h

end LegacyLemmas

/-- `findRow` only returns bindings present in the list. -/
theorem findRow_mem {κ α : Type} [DecidableEq κ] {k : κ} {v : α} :
    ∀ {l : List (κ × α)}, findRow k l = some v → (k, v) ∈ l := by
  intro l
  induction l with
  | nil => intro h; simp [findRow] at h
  | cons hd tl ih =>
    obtain ⟨k0, w⟩ := hd
    intro h
    by_cases hk : k0 = k
    · subst hk
      simp [findRow] at h
      simp [h]
    · simp [findRow, hk] at h
      simp [ih h]

/-- Well-formedness of the reference store: each row's `id` column equals its
primary key.  The SQL schema guarantees this; it is needed for the legacy
gorm `Save` (which writes at the row's own id) to act on the loaded row. -/
def Legacy.wfRefs (db : Legacy.DB) : Prop := ∀ p ∈ db.refs, p.2.id = p.1

theorem Legacy.wfRefs_find {db : Legacy.DB} {id : Nat} {ref : Legacy.AchievementReference}
    (hwf : Legacy.wfRefs db) (hfind : findRow id db.refs = some ref) : ref.id = id :=
  hwf (id, ref) (findRow_mem hfind)

/-- Updating the found row with a transformation that preserves a projection
`g` of that row preserves `g` of every lookup. -/
theorem map_findRow_updateRow_found {κ α β : Type} [DecidableEq κ] (g : α → β)
    (f : α → α) (id : κ) {ref : α} {l : List (κ × α)}
    (hfind : findRow id l = some ref) (hg : g (f ref) = g ref) (k : κ) :
    (findRow k (updateRow id f l)).map g = (findRow k l).map g := by
  by_cases hk : k = id
  · subst hk
    rw [findRow_updateRow_self, hfind]
    simp [hg]
  · rw [findRow_updateRow_ne id k f hk]

section OwnerLemmas

theorem ctx_submit_owner (o : Oracle) (now : Nat) (db : Ctx.DB) (id k : Nat) :
    (findRow k (Ctx.SubmitForVerification o now db id).snd.refs).map (fun r => r.studentID) =
    (findRow k db.refs).map (fun r => r.studentID) := by
  cases hf : findRow id db.refs with
  | none => rw [ctx_submit_absent hf]
  | some ref =>
    by_cases hs : ref.status = Status.draft
    · cases hok : o.refUpdateOk with
      | false => rw [ctx_submit_store_fail hf hs hok]
      | true =>
        rw [ctx_submit_draft hf hs hok]
        refine map_findRow_updateRow_found (fun r => r.studentID) _ id hf ?_ k
        rfl
    · rw [ctx_submit_not_draft hf hs]

theorem ctx_verify_owner (o : Oracle) (now : Nat) (db : Ctx.DB) (id v k : Nat) :
    (findRow k (Ctx.VerifyAchievement o now db id v).snd.refs).map (fun r => r.studentID) =
    (findRow k db.refs).map (fun r => r.studentID) := by
  cases hf : findRow id db.refs with
  | none => rw [ctx_verify_absent hf]
  | some ref =>
    by_cases hs : ref.status = Status.submitted
    · cases hok : o.refUpdateOk with
      | false => rw [ctx_verify_store_fail hf hs hok]
      | true =>
        rw [ctx_verify_submitted hf hs hok]
        refine map_findRow_updateRow_found (fun r => r.studentID) _ id hf ?_ k
        rfl
    · rw [ctx_verify_not_submitted hf hs]

theorem ctx_reject_owner (o : Oracle) (now : Nat) (db : Ctx.DB) (id v k : Nat)
    (note : String) :
    (findRow k (Ctx.RejectAchievement o now db id v note).snd.refs).map (fun r => r.studentID) =
    (findRow k db.refs).map (fun r => r.studentID) := by
  cases hf : findRow id db.refs with
  | none => rw [ctx_reject_absent hf]
  | some ref =>
    by_cases hs : ref.status = Status.submitted
    · cases hok : o.refUpdateOk with
      | false => rw [ctx_reject_store_fail hf hs hok]
      | true =>
        rw [ctx_reject_submitted hf hs hok]
        refine map_findRow_updateRow_found (fun r => r.studentID) _ id hf ?_ k
        rfl
    · rw [ctx_reject_not_submitted hf hs]

theorem ctx_delete_owner (o : Oracle) (now : Nat) (db : Ctx.DB) (id sid k : Nat) :
    (findRow k (Ctx.DeleteAchievement o now db id sid).snd.refs).map (fun r => r.studentID) =
    (findRow k db.refs).map (fun r => r.studentID) := by
  cases hf : findRow id db.refs with
  | none => rw [ctx_delete_absent hf]
  | some ref =>
    by_cases howner : ref.studentID = sid
    · by_cases h1 : ref.status = Status.draft
      · cases hoid : ObjectIDFromHex ref.mongoAchievementID with
        | none => rw [ctx_delete_bad_hex hf howner (Or.inl h1) hoid]
        | some oid =>
          cases hmo : o.mongoUpdateOk with
          | false => rw [ctx_delete_mongo_fail hf howner (Or.inl h1) hoid hmo]
          | true =>
            cases hro : o.refUpdateOk with
            | false => rw [ctx_delete_ref_fail hf howner (Or.inl h1) hoid hmo hro]
            | true =>
              rw [ctx_delete_ok hf howner (Or.inl h1) hoid hmo hro]
              refine map_findRow_updateRow_found (fun r => r.studentID) _ id hf ?_ k
              rfl
      · by_cases h2 : ref.status = Status.rejected
        · cases hoid : ObjectIDFromHex ref.mongoAchievementID with
          | none => rw [ctx_delete_bad_hex hf howner (Or.inr h2) hoid]
          | some oid =>
            cases hmo : o.mongoUpdateOk with
            | false => rw [ctx_delete_mongo_fail hf howner (Or.inr h2) hoid hmo]
            | true =>
              cases hro : o.refUpdateOk with
              | false => rw [ctx_delete_ref_fail hf howner (Or.inr h2) hoid hmo hro]
              | true =>
                rw [ctx_delete_ok hf howner (Or.inr h2) hoid hmo hro]
                refine map_findRow_updateRow_found (fun r => r.studentID) _ id hf ?_ k
                rfl
        · rw [ctx_delete_bad_status hf howner h1 h2]
    · rw [ctx_delete_not_owner hf howner]

theorem legacy_submit_owner (o : Oracle) (now : Nat) (db : Legacy.DB) (id sid k : Nat)
    (hwf : Legacy.wfRefs db) :
    (findRow k (Legacy.SubmitForVerification o now db id sid).snd.refs).map (fun r => r.studentID) =
    (findRow k db.refs).map (fun r => r.studentID) := by
  cases hf : findRow id db.refs with
  | none => rw [legacy_submit_absent hf]
  | some ref =>
    have hid := Legacy.wfRefs_find hwf hf
    by_cases howner : ref.studentID = sid
    · by_cases hs : ref.status = Status.draft
      · cases hok : o.refUpdateOk with
        | false => rw [legacy_submit_store_fail hf howner hs hok]
        | true =>
          rw [legacy_submit_ok hf hid howner hs hok]
          refine map_findRow_updateRow_found (fun r => r.studentID) _ id hf ?_ k
          rfl
      · rw [legacy_submit_not_draft hf howner hs]
    · rw [legacy_submit_not_owner hf howner]

theorem legacy_verify_owner (o : Oracle) (now : Nat) (db : Legacy.DB) (id v k : Nat)
    (hwf : Legacy.wfRefs db) :
    (findRow k (Legacy.VerifyAchievement o now db id v).snd.refs).map (fun r => r.studentID) =
    (findRow k db.refs).map (fun r => r.studentID) := by
  cases hf : findRow id db.refs with
  | none => rw [legacy_verify_absent hf]
  | some ref =>
    have hid := Legacy.wfRefs_find hwf hf
    by_cases hs : ref.status = Status.submitted
    · cases hok : o.refUpdateOk with
      | false => rw [legacy_verify_store_fail hf hs hok]
      | true =>
        rw [legacy_verify_ok hf hid hs hok]
        refine map_findRow_updateRow_found (fun r => r.studentID) _ id hf ?_ k
        rfl
    · rw [legacy_verify_not_submitted hf hs]

theorem legacy_reject_owner (o : Oracle) (db : Legacy.DB) (id v k : Nat) (note : String)
    (hwf : Legacy.wfRefs db) :
    (findRow k (Legacy.RejectAchievement o db id v note).snd.refs).map (fun r => r.studentID) =
    (findRow k db.refs).map (fun r => r.studentID) := by
  cases hf : findRow id db.refs with
  | none => rw [legacy_reject_absent hf]
  | some ref =>
    have hid := Legacy.wfRefs_find hwf hf
    by_cases hs : ref.status = Status.submitted
    · cases hok : o.refUpdateOk with
      | false => rw [legacy_reject_store_fail hf hs hok]
      | true =>
        rw [legacy_reject_ok hf hid hs hok]
        refine map_findRow_updateRow_found (fun r => r.studentID) _ id hf ?_ k
        rfl
    · rw [legacy_reject_not_submitted hf hs]

theorem legacy_delete_owner (o : Oracle) (now : Nat) (db : Legacy.DB) (id sid k : Nat)
    (hwf : Legacy.wfRefs db) :
    (findRow k (Legacy.DeleteAchievement o now db id sid).snd.refs).map (fun r => r.studentID) =
    (findRow k db.refs).map (fun r => r.studentID) := by
  cases hf : findRow id db.refs with
  | none => rw [legacy_delete_absent hf]
  | some ref =>
    have hid := Legacy.wfRefs_find hwf hf
    by_cases howner : ref.studentID = sid
    · by_cases hs : ref.status = Status.draft
      · cases hoid : ObjectIDFromHex ref.mongoAchievementID with
        | none => rw [legacy_delete_bad_hex hf howner hs hoid]
        | some oid =>
          cases hmo : o.mongoUpdateOk with
          | false => rw [legacy_delete_mongo_fail hf howner hs hoid hmo]
          | true =>
            cases hro : o.refUpdateOk with
            | false => rw [legacy_delete_ref_fail hf howner hs hoid hmo hro]
            | true =>
              rw [legacy_delete_ok hf hid howner hs hoid hmo hro]
              refine map_findRow_updateRow_found (fun r => r.studentID) _ id hf ?_ k
              rfl
      · rw [legacy_delete_not_draft hf howner hs]
    · rw [legacy_delete_not_owner hf howner]

theorem legacy_update_refs_unchanged (o : Oracle) (now : Nat) (db : Legacy.DB)
    (id sid : Nat) (payload : Legacy.Achievement) :
    (Legacy.UpdateAchievement o now db id sid payload).snd.refs = db.refs := by
  cases hf : findRow id db.refs with
  | none => rw [legacy_update_absent hf]
  | some ref =>
    by_cases howner : ref.studentID = sid
    · by_cases hs : ref.status = Status.draft
      · cases hoid : ObjectIDFromHex ref.mongoAchievementID with
        | none =>
          have heq : Legacy.UpdateAchievement o now db id sid payload =
              (.error "invalid object id", db) := by
            simp [Legacy.UpdateAchievement, legacy_get_ref_found hf, howner, hs, hoid]
          rw [heq]
        | some oid =>
          cases hmo : o.mongoUpdateOk with
          | false => rw [legacy_update_mongo_fail hf howner hs hoid hmo]
          | true => rw [legacy_update_ok hf howner hs hoid hmo]
      · rw [legacy_update_not_draft hf howner hs]
    · rw [legacy_update_not_owner hf howner]

theorem ctx_create_ok_eq {o : Oracle} {now : Nat} {freshOid : String} {freshRefId : Nat}
    {db : Ctx.DB} {sid : Nat} {req : Ctx.CreateAchievementRequest}
    (hmi : o.mongoInsertOk = true) (hri : o.refInsertOk = true) :
    Ctx.CreateAchievement o now freshOid freshRefId db sid req =
      (.ok { id := freshOid, studentID := sid, achievementType := req.achievementType, title := req.title, description := req.description, tags := req.tags, deletedAt := none, createdAt := now, updatedAt := now },
       { mongo := (freshOid, { id := freshOid, studentID := sid, achievementType := req.achievementType, title := req.title, description := req.description, tags := req.tags, deletedAt := none, createdAt := now, updatedAt := now }) :: db.mongo,
         refs := (freshRefId, { id := freshRefId, studentID := sid, mongoAchievementID := freshOid, status := .draft, submittedAt := none, verifiedAt := none, verifiedBy := none, rejectionNote := none, createdAt := now, updatedAt := now }) :: db.refs }) := by
  simp [Ctx.CreateAchievement, Ctx.Repo.CreateAchievement, hmi,
    Ctx.Repo.CreateReference, hri]

theorem ctx_create_ok_inv {o : Oracle} {now : Nat} {freshOid : String} {freshRefId : Nat}
    {db : Ctx.DB} {sid : Nat} {req : Ctx.CreateAchievementRequest} {a : Ctx.Achievement}
    (h : (Ctx.CreateAchievement o now freshOid freshRefId db sid req).fst = .ok a) :
    o.mongoInsertOk = true ∧ o.refInsertOk = true := by
  cases hmi : o.mongoInsertOk with
  | false =>
    have heq : Ctx.CreateAchievement o now freshOid freshRefId db sid req =
        (.error "store unavailable: mongo insert", db) := by
      simp [Ctx.CreateAchievement, Ctx.Repo.CreateAchievement, hmi]
    rw [heq] at h
    simp at h
  | true =>
    cases hri : o.refInsertOk with
    | false =>
      cases hmu : o.mongoUpdateOk with
      | false =>
        have heq : (Ctx.CreateAchievement o now freshOid freshRefId db sid req).fst =
            .error "store unavailable: ref insert" := by
          simp [Ctx.CreateAchievement, Ctx.Repo.CreateAchievement, hmi,
            Ctx.Repo.CreateReference, hri, Ctx.Repo.SoftDeleteAchievement, hmu]
        rw [heq] at h
        simp at h
      | true =>
        have heq : (Ctx.CreateAchievement o now freshOid freshRefId db sid req).fst =
            .error "store unavailable: ref insert" := by
          simp [Ctx.CreateAchievement, Ctx.Repo.CreateAchievement, hmi,
            Ctx.Repo.CreateReference, hri, Ctx.Repo.SoftDeleteAchievement, hmu]
        rw [heq] at h
        simp at h
    | true => exact ⟨rfl, rfl⟩

/-- Updating any row with a transformation that preserves a projection `g` of
every value preserves `g` of every lookup (also when the key is absent). -/
theorem map_findRow_updateRow_any {κ α β : Type} [DecidableEq κ] (g : α → β)
    (f : α → α) (hf : ∀ x, g (f x) = g x) (id k : κ) (l : List (κ × α)) :
    (findRow k (updateRow id f l)).map g = (findRow k l).map g := by
  by_cases hk : k = id
  · subst hk
    rw [findRow_updateRow_self]
    cases findRow k l <;> simp [hf]
  · rw [findRow_updateRow_ne id k f hk]

theorem ctx_submit_mongo_eq (o : Oracle) (now : Nat) (db : Ctx.DB) (id : Nat) :
    (Ctx.SubmitForVerification o now db id).snd.mongo = db.mongo := by
  cases hf : findRow id db.refs with
  | none => rw [ctx_submit_absent hf]
  | some ref =>
    by_cases hs : ref.status = Status.draft
    · cases hok : o.refUpdateOk with
      | false => rw [ctx_submit_store_fail hf hs hok]
      | true => rw [ctx_submit_draft hf hs hok]
    · rw [ctx_submit_not_draft hf hs]

theorem ctx_verify_mongo_eq (o : Oracle) (now : Nat) (db : Ctx.DB) (id v : Nat) :
    (Ctx.VerifyAchievement o now db id v).snd.mongo = db.mongo := by
  cases hf : findRow id db.refs with
  | none => rw [ctx_verify_absent hf]
  | some ref =>
    by_cases hs : ref.status = Status.submitted
    · cases hok : o.refUpdateOk with
      | false => rw [ctx_verify_store_fail hf hs hok]
      | true => rw [ctx_verify_submitted hf hs hok]
    · rw [ctx_verify_not_submitted hf hs]

theorem ctx_reject_mongo_eq (o : Oracle) (now : Nat) (db : Ctx.DB) (id v : Nat)
    (note : String) :
    (Ctx.RejectAchievement o now db id v note).snd.mongo = db.mongo := by
  cases hf : findRow id db.refs with
  | none => rw [ctx_reject_absent hf]
  | some ref =>
    by_cases hs : ref.status = Status.submitted
    · cases hok : o.refUpdateOk with
      | false => rw [ctx_reject_store_fail hf hs hok]
      | true => rw [ctx_reject_submitted hf hs hok]
    · rw [ctx_reject_not_submitted hf hs]

theorem ctx_delete_mongo_owner (o : Oracle) (now : Nat) (db : Ctx.DB) (id sid : Nat)
    (k : String) :
    (findRow k (Ctx.DeleteAchievement o now db id sid).snd.mongo).map (fun a => a.studentID) =
    (findRow k db.mongo).map (fun a => a.studentID) := by
  cases hf : findRow id db.refs with
  | none => rw [ctx_delete_absent hf]
  | some ref =>
    by_cases howner : ref.studentID = sid
    · by_cases h1 : ref.status = Status.draft
      · cases hoid : ObjectIDFromHex ref.mongoAchievementID with
        | none => rw [ctx_delete_bad_hex hf howner (Or.inl h1) hoid]
        | some oid =>
          cases hmo : o.mongoUpdateOk with
          | false => rw [ctx_delete_mongo_fail hf howner (Or.inl h1) hoid hmo]
          | true =>
            cases hro : o.refUpdateOk with
            | false =>
              rw [ctx_delete_ref_fail hf howner (Or.inl h1) hoid hmo hro]
              refine map_findRow_updateRow_any (fun a => a.studentID) _ ?_ oid k db.mongo
              intro x
              rfl
            | true =>
              rw [ctx_delete_ok hf howner (Or.inl h1) hoid hmo hro]
              refine map_findRow_updateRow_any (fun a => a.studentID) _ ?_ oid k db.mongo
              intro x
              rfl
      · by_cases h2 : ref.status = Status.rejected
        · cases hoid : ObjectIDFromHex ref.mongoAchievementID with
          | none => rw [ctx_delete_bad_hex hf howner (Or.inr h2) hoid]
          | some oid =>
            cases hmo : o.mongoUpdateOk with
            | false => rw [ctx_delete_mongo_fail hf howner (Or.inr h2) hoid hmo]
            | true =>
              cases hro : o.refUpdateOk with
              | false =>
                rw [ctx_delete_ref_fail hf howner (Or.inr h2) hoid hmo hro]
                refine map_findRow_updateRow_any (fun a => a.studentID) _ ?_ oid k db.mongo
                intro x
                rfl
              | true =>
                rw [ctx_delete_ok hf howner (Or.inr h2) hoid hmo hro]
                refine map_findRow_updateRow_any (fun a => a.studentID) _ ?_ oid k db.mongo
                intro x
                rfl
        · rw [ctx_delete_bad_status hf howner h1 h2]
    · rw [ctx_delete_not_owner hf howner]

theorem legacy_submit_mongo_eq (o : Oracle) (now : Nat) (db : Legacy.DB) (id sid : Nat)
    (hwf : Legacy.wfRefs db) :
    (Legacy.SubmitForVerification o now db id sid).snd.mongo = db.mongo := by
  cases hf : findRow id db.refs with
  | none => rw [legacy_submit_absent hf]
  | some ref =>
    have hid := Legacy.wfRefs_find hwf hf
    by_cases howner : ref.studentID = sid
    · by_cases hs : ref.status = Status.draft
      · cases hok : o.refUpdateOk with
        | false => rw [legacy_submit_store_fail hf howner hs hok]
        | true => rw [legacy_submit_ok hf hid howner hs hok]
      · rw [legacy_submit_not_draft hf howner hs]
    · rw [legacy_submit_not_owner hf howner]

theorem legacy_verify_mongo_eq (o : Oracle) (now : Nat) (db : Legacy.DB) (id v : Nat)
    (hwf : Legacy.wfRefs db) :
    (Legacy.VerifyAchievement o now db id v).snd.mongo = db.mongo := by
  cases hf : findRow id db.refs with
  | none => rw [legacy_verify_absent hf]
  | some ref =>
    have hid := Legacy.wfRefs_find hwf hf
    by_cases hs : ref.status = Status.submitted
    · cases hok : o.refUpdateOk with
      | false => rw [legacy_verify_store_fail hf hs hok]
      | true => rw [legacy_verify_ok hf hid hs hok]
    · rw [legacy_verify_not_submitted hf hs]

theorem legacy_reject_mongo_eq (o : Oracle) (db : Legacy.DB) (id v : Nat) (note : String)
    (hwf : Legacy.wfRefs db) :
    (Legacy.RejectAchievement o db id v note).snd.mongo = db.mongo := by
  cases hf : findRow id db.refs with
  | none => rw [legacy_reject_absent hf]
  | some ref =>
    have hid := Legacy.wfRefs_find hwf hf
    by_cases hs : ref.status = Status.submitted
    · cases hok : o.refUpdateOk with
      | false => rw [legacy_reject_store_fail hf hs hok]
      | true => rw [legacy_reject_ok hf hid hs hok]
    · rw [legacy_reject_not_submitted hf hs]

theorem legacy_delete_mongo_owner (o : Oracle) (now : Nat) (db : Legacy.DB)
    (id sid : Nat) (k : String) (hwf : Legacy.wfRefs db) :
    (findRow k (Legacy.DeleteAchievement o now db id sid).snd.mongo).map (fun a => a.studentID) =
    (findRow k db.mongo).map (fun a => a.studentID) := by
  cases hf : findRow id db.refs with
  | none => rw [legacy_delete_absent hf]
  | some ref =>
    have hid := Legacy.wfRefs_find hwf hf
    by_cases howner : ref.studentID = sid
    · by_cases hs : ref.status = Status.draft
      · cases hoid : ObjectIDFromHex ref.mongoAchievementID with
        | none => rw [legacy_delete_bad_hex hf howner hs hoid]
        | some oid =>
          cases hmo : o.mongoUpdateOk with
          | false => rw [legacy_delete_mongo_fail hf howner hs hoid hmo]
          | true =>
            cases hro : o.refUpdateOk with
            | false =>
              rw [legacy_delete_ref_fail hf howner hs hoid hmo hro]
              refine map_findRow_updateRow_any (fun a => a.studentID) _ ?_ oid k db.mongo
              intro x
              rfl
            | true =>
              rw [legacy_delete_ok hf hid howner hs hoid hmo hro]
              refine map_findRow_updateRow_any (fun a => a.studentID) _ ?_ oid k db.mongo
              intro x
              rfl
      · rw [legacy_delete_not_draft hf howner hs]
    · rw [legacy_delete_not_owner hf howner]

theorem legacy_create_ok_eq {o : Oracle} {now : Nat} {freshOid : String}
    {freshRefId : Nat} {db : Legacy.DB} {sid : Nat} {payload : Legacy.Achievement}
    (hmi : o.mongoInsertOk = true) (hri : o.refInsertOk = true) :
    Legacy.CreateAchievement o now freshOid freshRefId db sid payload =
      (.ok { id := freshRefId, studentID := sid, mongoAchievementID := freshOid, status := .draft, submittedAt := none, verifiedAt := none, verifiedBy := none, rejectionNote := "", createdAt := now, updatedAt := now },
       { mongo := (freshOid, { payload with id := freshOid, studentID := sid, createdAt := now, updatedAt := now }) :: db.mongo,
         refs := (freshRefId, { id := freshRefId, studentID := sid, mongoAchievementID := freshOid, status := .draft, submittedAt := none, verifiedAt := none, verifiedBy := none, rejectionNote := "", createdAt := now, updatedAt := now }) :: db.refs }) := by
  simp [Legacy.CreateAchievement, Legacy.Repo.CreateMongo, hmi,
    Legacy.Repo.CreateReference, hri]

theorem legacy_create_ok_inv {o : Oracle} {now : Nat} {freshOid : String}
    {freshRefId : Nat} {db : Legacy.DB} {sid : Nat} {payload : Legacy.Achievement}
    {r : Legacy.AchievementReference}
    (h : (Legacy.CreateAchievement o now freshOid freshRefId db sid payload).fst = .ok r) :
    o.mongoInsertOk = true ∧ o.refInsertOk = true := by
  cases hmi : o.mongoInsertOk with
  | false =>
    have heq : (Legacy.CreateAchievement o now freshOid freshRefId db sid payload).fst =
        .error "store unavailable: mongo insert" := by
      simp [Legacy.CreateAchievement, Legacy.Repo.CreateMongo, hmi]
    rw [heq] at h
    simp at h
  | true =>
    cases hri : o.refInsertOk with
    | false =>
      have heq : (Legacy.CreateAchievement o now freshOid freshRefId db sid payload).fst =
          .error "store unavailable: ref insert" := by
        simp [Legacy.CreateAchievement, Legacy.Repo.CreateMongo, hmi,
          Legacy.Repo.CreateReference, hri]
      rw [heq] at h
      simp at h
    | true => exact ⟨rfl, rfl⟩

end OwnerLemmas

section Fixtures

/-- A well-formed 24-hex ObjectID used by the concrete scenarios. -/
def oidA : String := "aaaaaaaaaaaaaaaaaaaaaaaa"

/-- All stores available. -/
def okOracle : Oracle := ⟨true, true, true, true⟩

/-- The reference-store insert fails; everything else is available. -/
def refInsertFailOracle : Oracle := ⟨true, false, true, true⟩

/-- The mongo update (soft delete / replace) fails; everything else works. -/
def mongoUpdateFailOracle : Oracle := ⟨true, true, false, true⟩

/-- The reference-store update fails; everything else works. -/
def refUpdateFailOracle : Oracle := ⟨true, true, true, false⟩

/-- A concrete mongo document paired with reference 7, owner student 1. -/
def ctxDocA : Ctx.Achievement :=
  { id := oidA, studentID := 1, achievementType := "competition", title := "X",
    description := "", tags := [], deletedAt := none, createdAt := 0, updatedAt := 0 }

/-- A concrete Ctx reference row with the given status. -/
def ctxRef (st : Status) : Ctx.AchievementReference :=
  { id := 7, studentID := 1, mongoAchievementID := oidA, status := st,
    submittedAt := none, verifiedAt := none, verifiedBy := none,
    rejectionNote := none, createdAt := 0, updatedAt := 0 }

/-- A concrete Ctx store state with one achievement in the given status. -/
def ctxDB (st : Status) : Ctx.DB :=
  { mongo := [(oidA, ctxDocA)], refs := [(7, ctxRef st)] }

/-- A concrete legacy mongo document paired with reference 7, owner 1. -/
def legDocA : Legacy.Achievement :=
  { id := oidA, studentID := 1, achievementType := "competition", title := "X",
    description := "", tags := [], isDeleted := false, createdAt := 0, updatedAt := 0 }

/-- A concrete legacy reference row with the given status. -/
def legRef (st : Status) : Legacy.AchievementReference :=
  { id := 7, studentID := 1, mongoAchievementID := oidA, status := st,
    submittedAt := none, verifiedAt := none, verifiedBy := none,
    rejectionNote := "", createdAt := 0, updatedAt := 0 }

/-- A concrete legacy store state with one achievement in the given status. -/
def legDB (st : Status) : Legacy.DB :=
  { mongo := [(oidA, legDocA)], refs := [(7, legRef st)] }

/-- A caller-supplied update payload claiming a different owner (student 2). -/
def legPayload : Legacy.Achievement :=
  { id := "", studentID := 2, achievementType := "competition", title := "Y",
    description := "new", tags := [], isDeleted := false, createdAt := 0, updatedAt := 0 }

end Fixtures

/-- C2: for every persisted reference record and every lifecycle operation
(submit, verify, reject, delete) in either generation of the service, if the
record's current status is not a legal `From` state for that event in the
§4.2 transition table, the operation returns an error and the reference store
is unchanged; and every successful lifecycle operation writes exactly the
table's transition to the acted-on row, leaving every other row unchanged. -/
theorem C2_transition_legality :
    (∀ (o : Oracle) (now : Nat) (db : Ctx.DB) (id : Nat) (ev : Ctx.LEvent)
      (ref : Ctx.AchievementReference), findRow id db.refs = some ref →
      ref.status ∉ Ctx.fromStates ev →
      (∃ e, (Ctx.runEvent o now db id ev).fst = .error e) ∧
      (Ctx.runEvent o now db id ev).snd.refs = db.refs) ∧
    (∀ (o : Oracle) (now : Nat) (db : Ctx.DB) (id : Nat) (ev : Ctx.LEvent),
      (Ctx.runEvent o now db id ev).fst = .ok () →
      ∃ ref, findRow id db.refs = some ref ∧ ref.status ∈ Ctx.fromStates ev ∧
        (∃ r', findRow id (Ctx.runEvent o now db id ev).snd.refs = some r' ∧
          r'.status = Ctx.toState ev) ∧
        (∀ id', id' ≠ id →
          findRow id' (Ctx.runEvent o now db id ev).snd.refs = findRow id' db.refs)) ∧
    (∀ (o : Oracle) (now : Nat) (db : Legacy.DB) (id : Nat) (ev : Legacy.LEvent)
      (ref : Legacy.AchievementReference), findRow id db.refs = some ref →
      ref.status ∉ Legacy.fromStates ev →
      (∃ e, (Legacy.runEvent o now db id ev).fst = .error e) ∧
      (Legacy.runEvent o now db id ev).snd.refs = db.refs) ∧
    (∀ (o : Oracle) (now : Nat) (db : Legacy.DB) (id : Nat) (ev : Legacy.LEvent),
      Legacy.wfRefs db →
      (Legacy.runEvent o now db id ev).fst = .ok () →
      ∃ ref, findRow id db.refs = some ref ∧ ref.status ∈ Legacy.fromStates ev ∧
        (∃ r', findRow id (Legacy.runEvent o now db id ev).snd.refs = some r' ∧
          r'.status = Legacy.toState ev) ∧
        (∀ id', id' ≠ id →
          findRow id' (Legacy.runEvent o now db id ev).snd.refs = findRow id' db.refs)) := by
  refine ⟨?_, ?_, ?_, ?_⟩
  · intro o now db id ev ref hfind hst
    cases ev with
    | submit =>
      have h : ref.status ≠ Status.draft := by
        intro hc; exact hst (by simp [Ctx.fromStates, hc])
      simp only [Ctx.runEvent]
      rw [ctx_submit_not_draft hfind h]
      exact ⟨⟨_, rfl⟩, rfl⟩
    | verify v =>
      have h : ref.status ≠ Status.submitted := by
        intro hc; exact hst (by simp [Ctx.fromStates, hc])
      simp only [Ctx.runEvent]
      rw [ctx_verify_not_submitted hfind h]
      exact ⟨⟨_, rfl⟩, rfl⟩
    | reject v note =>
      have h : ref.status ≠ Status.submitted := by
        intro hc; exact hst (by simp [Ctx.fromStates, hc])
      simp only [Ctx.runEvent]
      rw [ctx_reject_not_submitted hfind h]
      exact ⟨⟨_, rfl⟩, rfl⟩
    | delete sid =>
      have h1 : ref.status ≠ Status.draft := by
        intro hc; exact hst (by simp [Ctx.fromStates, hc])
      have h2 : ref.status ≠ Status.rejected := by
        intro hc; exact hst (by simp [Ctx.fromStates, hc])
      simp only [Ctx.runEvent]
      by_cases howner : ref.studentID = sid
      · rw [ctx_delete_bad_status hfind howner h1 h2]
        exact ⟨⟨_, rfl⟩, rfl⟩
      · rw [ctx_delete_not_owner hfind howner]
        exact ⟨⟨_, rfl⟩, rfl⟩
  · intro o now db id ev h
    cases ev with
    | submit =>
      simp only [Ctx.runEvent] at h ⊢
      obtain ⟨ref, hfind, hs, hok⟩ := ctx_submit_ok_inv h
      refine ⟨ref, hfind, by simp [Ctx.fromStates, hs], ?_, ?_⟩
      · rw [ctx_submit_draft hfind hs hok]
        exact ⟨_, by rw [findRow_updateRow_self, hfind]; rfl, rfl⟩
      · intro id' hne
        rw [ctx_submit_draft hfind hs hok]
        exact findRow_updateRow_ne id id' _ hne db.refs
    | verify v =>
      simp only [Ctx.runEvent] at h ⊢
      obtain ⟨ref, hfind, hs, hok⟩ := ctx_verify_ok_inv h
      refine ⟨ref, hfind, by simp [Ctx.fromStates, hs], ?_, ?_⟩
      · rw [ctx_verify_submitted hfind hs hok]
        exact ⟨_, by rw [findRow_updateRow_self, hfind]; rfl, rfl⟩
      · intro id' hne
        rw [ctx_verify_submitted hfind hs hok]
        exact findRow_updateRow_ne id id' _ hne db.refs
    | reject v note =>
      simp only [Ctx.runEvent] at h ⊢
      obtain ⟨ref, hfind, hs, hok⟩ := ctx_reject_ok_inv h
      refine ⟨ref, hfind, by simp [Ctx.fromStates, hs], ?_, ?_⟩
      · rw [ctx_reject_submitted hfind hs hok]
        exact ⟨_, by rw [findRow_updateRow_self, hfind]; rfl, rfl⟩
      · intro id' hne
        rw [ctx_reject_submitted hfind hs hok]
        exact findRow_updateRow_ne id id' _ hne db.refs
    | delete sid =>
      simp only [Ctx.runEvent] at h ⊢
      obtain ⟨ref, oid, hfind, howner, hst, hoid, hmo, hro⟩ := ctx_delete_ok_inv h
      refine ⟨ref, hfind, by rcases hst with h1 | h1 <;> simp [Ctx.fromStates, h1], ?_, ?_⟩
      · rw [ctx_delete_ok hfind howner hst hoid hmo hro]
        exact ⟨_, by rw [findRow_updateRow_self, hfind]; rfl, rfl⟩
      · intro id' hne
        rw [ctx_delete_ok hfind howner hst hoid hmo hro]
        exact findRow_updateRow_ne id id' _ hne db.refs
  · intro o now db id ev ref hfind hst
    cases ev with
    | submit sid =>
      have h : ref.status ≠ Status.draft := by
        intro hc; exact hst (by simp [Legacy.fromStates, hc])
      simp only [Legacy.runEvent]
      by_cases howner : ref.studentID = sid
      · rw [legacy_submit_not_draft hfind howner h]
        exact ⟨⟨_, rfl⟩, rfl⟩
      · rw [legacy_submit_not_owner hfind howner]
        exact ⟨⟨_, rfl⟩, rfl⟩
    | verify v =>
      have h : ref.status ≠ Status.submitted := by
        intro hc; exact hst (by simp [Legacy.fromStates, hc])
      simp only [Legacy.runEvent]
      rw [legacy_verify_not_submitted hfind h]
      exact ⟨⟨_, rfl⟩, rfl⟩
    | reject v note =>
      have h : ref.status ≠ Status.submitted := by
        intro hc; exact hst (by simp [Legacy.fromStates, hc])
      simp only [Legacy.runEvent]
      rw [legacy_reject_not_submitted hfind h]
      exact ⟨⟨_, rfl⟩, rfl⟩
    | delete sid =>
      have h : ref.status ≠ Status.draft := by
        intro hc; exact hst (by simp [Legacy.fromStates, hc])
      simp only [Legacy.runEvent]
      by_cases howner : ref.studentID = sid
      · rw [legacy_delete_not_draft hfind howner h]
        exact ⟨⟨_, rfl⟩, rfl⟩
      · rw [legacy_delete_not_owner hfind howner]
        exact ⟨⟨_, rfl⟩, rfl⟩
  · intro o now db id ev hwf h
    cases ev with
    | submit sid =>
      simp only [Legacy.runEvent] at h ⊢
      obtain ⟨ref, hfind, howner, hs, hok⟩ := legacy_submit_ok_inv h
      have hid : ref.id = id := Legacy.wfRefs_find hwf hfind
      refine ⟨ref, hfind, by simp [Legacy.fromStates, hs], ?_, ?_⟩
      · rw [legacy_submit_ok hfind hid howner hs hok]
        exact ⟨_, by rw [findRow_updateRow_self, hfind]; rfl, rfl⟩
      · intro id' hne
        rw [legacy_submit_ok hfind hid howner hs hok]
        exact findRow_updateRow_ne id id' _ hne db.refs
    | verify v =>
      simp only [Legacy.runEvent] at h ⊢
      obtain ⟨ref, hfind, hs, hok⟩ := legacy_verify_ok_inv h
      have hid : ref.id = id := Legacy.wfRefs_find hwf hfind
      refine ⟨ref, hfind, by simp [Legacy.fromStates, hs], ?_, ?_⟩
      · rw [legacy_verify_ok hfind hid hs hok]
        exact ⟨_, by rw [findRow_updateRow_self, hfind]; rfl, rfl⟩
      · intro id' hne
        rw [legacy_verify_ok hfind hid hs hok]
        exact findRow_updateRow_ne id id' _ hne db.refs
    | reject v note =>
      simp only [Legacy.runEvent] at h ⊢
      obtain ⟨ref, hfind, hs, hok⟩ := legacy_reject_ok_inv h
      have hid : ref.id = id := Legacy.wfRefs_find hwf hfind
      refine ⟨ref, hfind, by simp [Legacy.fromStates, hs], ?_, ?_⟩
      · rw [legacy_reject_ok hfind hid hs hok]
        exact ⟨_, by rw [findRow_updateRow_self, hfind]; rfl, rfl⟩
      · intro id' hne
        rw [legacy_reject_ok hfind hid hs hok]
        exact findRow_updateRow_ne id id' _ hne db.refs
    | delete sid =>
      simp only [Legacy.runEvent] at h ⊢
      obtain ⟨ref, oid, hfind, howner, hs, hoid, hmo, hro⟩ := legacy_delete_ok_inv h
      have hid : ref.id = id := Legacy.wfRefs_find hwf hfind
      refine ⟨ref, hfind, by simp [Legacy.fromStates, hs], ?_, ?_⟩
      · rw [legacy_delete_ok hfind hid howner hs hoid hmo hro]
        exact ⟨_, by rw [findRow_updateRow_self, hfind]; rfl, rfl⟩
      · intro id' hne
        rw [legacy_delete_ok hfind hid howner hs hoid hmo hro]
        exact findRow_updateRow_ne id id' _ hne db.refs

/-- C2 witness: a concrete instance — submitting a `verified` Ctx record is
refused and leaves the reference store unchanged. -/
theorem C2_transition_legality_witness :
    (∃ e, (Ctx.runEvent okOracle 5 (ctxDB .verified) 7 Ctx.LEvent.submit).fst = .error e) ∧
    (Ctx.runEvent okOracle 5 (ctxDB .verified) 7 Ctx.LEvent.submit).snd.refs = (ctxDB .verified).refs :=
  C2_transition_legality.1 okOracle 5 (ctxDB .verified) 7 Ctx.LEvent.submit
    (ctxRef .verified) (by decide) (by decide)

/-- C1 counterexample: in the legacy `achievementService.CreateAchievement`
(`src/app/service/achievement.go`), with the content-store create succeeding
and the reference-store create failing, the original error is surfaced but NO
compensating action runs — the just-created content record is still live
(`isDeleted = false`), refuting the claim for this `CreateAchievement`. -/
theorem C1_counterexample :
    (Legacy.CreateAchievement refInsertFailOracle 0 oidA 7 ⟨[], []⟩ 1 legPayload).fst =
      .error "store unavailable: ref insert" ∧
    (∃ a, findRow oidA
        (Legacy.CreateAchievement refInsertFailOracle 0 oidA 7 ⟨[], []⟩ 1 legPayload).snd.mongo
        = some a ∧ a.isDeleted = false) := by
  exact ⟨rfl, ⟨{ legPayload with id := oidA, studentID := 1 }, rfl, rfl⟩⟩

/-- C1 (amended): in the Ctx generation, `AchievementService.CreateAchievement`
(`src/unnamed/part_002`) does compensate — when the content-store create
succeeds, the reference-store create fails and the compensating write is
available, the fresh content record is soft-deleted, the original error is
surfaced, and no reference (pre-existing or new) points at the fresh content
record. -/
theorem C1_create_compensation (o : Oracle) (now : Nat) (freshOid : String)
    (freshRefId : Nat) (db : Ctx.DB) (sid : Nat) (req : Ctx.CreateAchievementRequest)
    (hmi : o.mongoInsertOk = true) (hri : o.refInsertOk = false)
    (hmu : o.mongoUpdateOk = true)
    (hfresh : ∀ p ∈ db.refs, p.2.mongoAchievementID ≠ freshOid) :
    (Ctx.CreateAchievement o now freshOid freshRefId db sid req).fst =
      .error "store unavailable: ref insert" ∧
    (∃ a, findRow freshOid (Ctx.CreateAchievement o now freshOid freshRefId db sid req).snd.mongo
      = some a ∧ a.deletedAt = some now) ∧
    (Ctx.CreateAchievement o now freshOid freshRefId db sid req).snd.refs = db.refs ∧
    (∀ p ∈ (Ctx.CreateAchievement o now freshOid freshRefId db sid req).snd.refs,
      p.2.mongoAchievementID ≠ freshOid) := by
  have hrun : Ctx.CreateAchievement o now freshOid freshRefId db sid req =
      (.error "store unavailable: ref insert",
       { db with mongo := (freshOid, { id := freshOid, studentID := sid, achievementType := req.achievementType, title := req.title, description := req.description, tags := req.tags, deletedAt := some now, createdAt := now, updatedAt := now }) :: db.mongo }) := by
    simp [Ctx.CreateAchievement, Ctx.Repo.CreateAchievement, hmi,
      Ctx.Repo.CreateReference, hri, Ctx.Repo.SoftDeleteAchievement, hmu, updateRow]
  rw [hrun]
  refine ⟨rfl, ⟨{ id := freshOid, studentID := sid, achievementType := req.achievementType, title := req.title, description := req.description, tags := req.tags, deletedAt := some now, createdAt := now, updatedAt := now }, by simp [findRow], rfl⟩, rfl, hfresh⟩

/-- C1 witness: the compensation theorem at a concrete input (empty stores,
reference insert forced to fail). -/
theorem C1_create_compensation_witness :
    (Ctx.CreateAchievement refInsertFailOracle 3 oidA 7 ⟨[], []⟩ 1 ⟨"competition", "X", "", []⟩).fst =
      .error "store unavailable: ref insert" ∧
    (∃ a, findRow oidA (Ctx.CreateAchievement refInsertFailOracle 3 oidA 7 ⟨[], []⟩ 1 ⟨"competition", "X", "", []⟩).snd.mongo
      = some a ∧ a.deletedAt = some 3) ∧
    (Ctx.CreateAchievement refInsertFailOracle 3 oidA 7 ⟨[], []⟩ 1 ⟨"competition", "X", "", []⟩).snd.refs = (⟨[], []⟩ : Ctx.DB).refs ∧
    (∀ p ∈ (Ctx.CreateAchievement refInsertFailOracle 3 oidA 7 ⟨[], []⟩ 1 ⟨"competition", "X", "", []⟩).snd.refs,
      p.2.mongoAchievementID ≠ oidA) :=
  C1_create_compensation refInsertFailOracle 3 oidA 7 ⟨[], []⟩ 1
    ⟨"competition", "X", "", []⟩ (by decide) (by decide) (by decide) (by decide)

/-- C3 counterexample: in the legacy `achievementService.DeleteAchievement`
(`src/app/service/achievement.go`), the owner deleting a `rejected`
achievement is refused ("only draft achievements can be deleted") and nothing
changes, refuting the claim that delete succeeds from `rejected` for every
implementation. -/
theorem C3_counterexample :
    (legRef .rejected).studentID = 1 ∧ (legRef .rejected).status = Status.rejected ∧
    (Legacy.DeleteAchievement okOracle 5 (legDB .rejected) 7 1).fst =
      .error "only draft achievements can be deleted" ∧
    (Legacy.DeleteAchievement okOracle 5 (legDB .rejected) 7 1).snd = legDB .rejected := by
  exact ⟨rfl, rfl, rfl, rfl⟩

/-- C3 (amended): in the Ctx generation, `AchievementService.DeleteAchievement`
(`src/unnamed/part_002`) does succeed from `rejected` for the owner: the
reference transitions to `deleted` and the paired content record is
soft-deleted. -/
theorem C3_delete_rejected (o : Oracle) (now : Nat) (db : Ctx.DB) (id sid : Nat)
    (ref : Ctx.AchievementReference) (oid : String) (a : Ctx.Achievement)
    (hfind : findRow id db.refs = some ref) (howner : ref.studentID = sid)
    (hst : ref.status = Status.rejected)
    (hoid : ObjectIDFromHex ref.mongoAchievementID = some oid)
    (hdoc : findRow oid db.mongo = some a)
    (hmo : o.mongoUpdateOk = true) (hro : o.refUpdateOk = true) :
    (Ctx.DeleteAchievement o now db id sid).fst = .ok () ∧
    (∃ r', findRow id (Ctx.DeleteAchievement o now db id sid).snd.refs = some r' ∧
      r'.status = Status.deleted) ∧
    findRow oid (Ctx.DeleteAchievement o now db id sid).snd.mongo =
      some { a with deletedAt := some now } := by
  rw [ctx_delete_ok hfind howner (Or.inr hst) hoid hmo hro]
  refine ⟨rfl, ⟨Ctx.Repo.updateStatusRow now .deleted none none ref, ?_, rfl⟩, ?_⟩
  · rw [findRow_updateRow_self, hfind]
    rfl
  · rw [findRow_updateRow_self, hdoc]
    rfl

/-- C3 witness: owner student 1 deletes the concrete rejected achievement 7;
it succeeds, the reference becomes `deleted` and the document is marked. -/
theorem C3_delete_rejected_witness :
    (Ctx.DeleteAchievement okOracle 5 (ctxDB .rejected) 7 1).fst = .ok () ∧
    (∃ r', findRow 7 (Ctx.DeleteAchievement okOracle 5 (ctxDB .rejected) 7 1).snd.refs = some r' ∧
      r'.status = Status.deleted) ∧
    findRow oidA (Ctx.DeleteAchievement okOracle 5 (ctxDB .rejected) 7 1).snd.mongo =
      some { ctxDocA with deletedAt := some 5 } :=
  C3_delete_rejected okOracle 5 (ctxDB .rejected) 7 1 (ctxRef .rejected) oidA ctxDocA
    (by decide) (by decide) (by decide) (by decide) (by decide) (by decide) (by decide)

/-- C4: in `achievementService.UpdateAchievement`
(`src/app/service/achievement.go`), a non-owner caller gets the unauthorized
error, an owner on a non-`draft` reference gets the invalid-state error — in
both failure cases the whole store state (in particular the content record)
is unchanged — and only when both preconditions hold is the content document
replaced (full `$set` of the supplied payload, keeping the stored id and the
soft-delete marker). -/
theorem C4_update_gating (o : Oracle) (now : Nat) (db : Legacy.DB) (id sid : Nat)
    (payload : Legacy.Achievement) (ref : Legacy.AchievementReference)
    (hfind : findRow id db.refs = some ref) :
    (ref.studentID ≠ sid →
      Legacy.UpdateAchievement o now db id sid payload =
        (.error "unauthorized: not your achievement", db)) ∧
    (ref.studentID = sid → ref.status ≠ Status.draft →
      Legacy.UpdateAchievement o now db id sid payload =
        (.error "only draft achievements can be updated", db)) ∧
    (∀ oid a, ref.studentID = sid → ref.status = Status.draft →
      ObjectIDFromHex ref.mongoAchievementID = some oid →
      o.mongoUpdateOk = true → findRow oid db.mongo = some a →
      (Legacy.UpdateAchievement o now db id sid payload).fst = .ok () ∧
      findRow oid (Legacy.UpdateAchievement o now db id sid payload).snd.mongo =
        some { payload with id := oid, updatedAt := now, isDeleted := a.isDeleted }) := by
  refine ⟨?_, ?_, ?_⟩
  · intro h
    exact legacy_update_not_owner hfind h
  · intro howner h
    exact legacy_update_not_draft hfind howner h
  · intro oid a howner h hoid hmo hdoc
    rw [legacy_update_ok hfind howner h hoid hmo]
    refine ⟨rfl, ?_⟩
    rw [findRow_updateRow_self, hdoc]
    rfl

/-- C4 witness: student 2 attempting to update student 1's draft achievement
is refused with the unauthorized error and nothing changes. -/
theorem C4_update_gating_witness :
    Legacy.UpdateAchievement okOracle 9 (legDB .draft) 7 2 legPayload =
      (.error "unauthorized: not your achievement", legDB .draft) :=
  (C4_update_gating okOracle 9 (legDB .draft) 7 2 legPayload (legRef .draft)
    (by decide)).1 (by decide)

/-- C5: in both generations of `DeleteAchievement`, the content soft-delete
is ordered before the reference flip: if the content soft-delete fails, the
operation errors with the whole state (in particular the reference's status)
unchanged; if the reference flip fails after the soft-delete succeeded, the
reference store is still unchanged while the content record is already
marked — exhibiting the content-first order. -/
theorem C5_delete_content_first :
    (∀ (o : Oracle) (now : Nat) (db : Ctx.DB) (id sid : Nat)
      (ref : Ctx.AchievementReference) (oid : String),
      findRow id db.refs = some ref → ref.studentID = sid →
      (ref.status = Status.draft ∨ ref.status = Status.rejected) →
      ObjectIDFromHex ref.mongoAchievementID = some oid →
      ((o.mongoUpdateOk = false →
        Ctx.DeleteAchievement o now db id sid =
          (.error "store unavailable: mongo update", db)) ∧
       (o.mongoUpdateOk = true → o.refUpdateOk = false →
        (Ctx.DeleteAchievement o now db id sid).fst = .error "store unavailable: ref update" ∧
        (Ctx.DeleteAchievement o now db id sid).snd.refs = db.refs ∧
        (Ctx.DeleteAchievement o now db id sid).snd.mongo =
          updateRow oid (fun a => { a with deletedAt := some now }) db.mongo))) ∧
    (∀ (o : Oracle) (now : Nat) (db : Legacy.DB) (id sid : Nat)
      (ref : Legacy.AchievementReference) (oid : String),
      findRow id db.refs = some ref → ref.studentID = sid →
      ref.status = Status.draft →
      ObjectIDFromHex ref.mongoAchievementID = some oid →
      ((o.mongoUpdateOk = false →
        Legacy.DeleteAchievement o now db id sid =
          (.error "store unavailable: mongo update", db)) ∧
       (o.mongoUpdateOk = true → o.refUpdateOk = false →
        (Legacy.DeleteAchievement o now db id sid).fst = .error "store unavailable: ref update" ∧
        (Legacy.DeleteAchievement o now db id sid).snd.refs = db.refs ∧
        (Legacy.DeleteAchievement o now db id sid).snd.mongo =
          updateRow oid (fun a => { a with isDeleted := true, updatedAt := now }) db.mongo))) := by
  constructor
  · intro o now db id sid ref oid hfind howner hst hoid
    constructor
    · intro hmo
      exact ctx_delete_mongo_fail hfind howner hst hoid hmo
    · intro hmo hro
      rw [ctx_delete_ref_fail hfind howner hst hoid hmo hro]
      exact ⟨rfl, rfl, rfl⟩
  · intro o now db id sid ref oid hfind howner hst hoid
    constructor
    · intro hmo
      exact legacy_delete_mongo_fail hfind howner hst hoid hmo
    · intro hmo hro
      rw [legacy_delete_ref_fail hfind howner hst hoid hmo hro]
      exact ⟨rfl, rfl, rfl⟩

/-- C5 witness: with the mongo soft-delete forced to fail, the concrete owner
delete of draft achievement 7 reports failure and changes nothing. -/
theorem C5_delete_content_first_witness :
    Ctx.DeleteAchievement mongoUpdateFailOracle 5 (ctxDB .draft) 7 1 =
      (.error "store unavailable: mongo update", ctxDB .draft) :=
  ((C5_delete_content_first.1 mongoUpdateFailOracle 5 (ctxDB .draft) 7 1
    (ctxRef .draft) oidA (by decide) (by decide) (Or.inl (by decide)) (by decide)).1) (by decide)

/-- C6 counterexample: the legacy `achievementService.UpdateAchievement`
performs a full `$set` replace of the content document with the
caller-supplied payload including its `StudentID` field — the owner updating
their own draft with a payload claiming `student_id = 2` succeeds and the
stored content record's owner changes from 1 to 2, refuting the claim that
`owner_id` on the content record never changes. -/
theorem C6_counterexample :
    legDocA.studentID = 1 ∧ legPayload.studentID = 2 ∧
    (Legacy.UpdateAchievement okOracle 9 (legDB .draft) 7 1 legPayload).fst = .ok () ∧
    (∃ a, findRow oidA
      (Legacy.UpdateAchievement okOracle 9 (legDB .draft) 7 1 legPayload).snd.mongo = some a ∧
      a.studentID = 2) :=
  ⟨rfl, rfl, rfl,
    ⟨{ legPayload with id := oidA, updatedAt := 9, isDeleted := false }, rfl, rfl⟩⟩

/-- C6 (amended): `owner_id` never changes after creation except through the
legacy content replace.  In both generations every lifecycle operation
(submit, verify, reject, delete) preserves `student_id` of every stored
reference row AND of every stored content document (the delete soft-delete
sets only the deletion marker; submit/verify/reject never touch the content
store) — for the legacy generation under the well-formed-keys assumption the
SQL schema provides; `UpdateAchievement` never touches the reference store;
and a successful create in either generation stamps the authenticated
student onto both new records.  The single exception, forced by the
counterexample, is the legacy `UpdateAchievement`'s full `$set` content
replace: it writes the caller-supplied `StudentID` into the content
document, so the content owner is preserved only if the caller resupplies
it. -/
theorem C6_owner_immutable :
    (∀ (o : Oracle) (now : Nat) (db : Ctx.DB) (id : Nat) (ev : Ctx.LEvent) (k : Nat),
      (findRow k (Ctx.runEvent o now db id ev).snd.refs).map (fun r => r.studentID) =
      (findRow k db.refs).map (fun r => r.studentID)) ∧
    (∀ (o : Oracle) (now : Nat) (db : Ctx.DB) (id : Nat) (ev : Ctx.LEvent) (k : String),
      (findRow k (Ctx.runEvent o now db id ev).snd.mongo).map (fun a => a.studentID) =
      (findRow k db.mongo).map (fun a => a.studentID)) ∧
    (∀ (o : Oracle) (now : Nat) (db : Legacy.DB) (id : Nat) (ev : Legacy.LEvent) (k : Nat),
      Legacy.wfRefs db →
      (findRow k (Legacy.runEvent o now db id ev).snd.refs).map (fun r => r.studentID) =
      (findRow k db.refs).map (fun r => r.studentID)) ∧
    (∀ (o : Oracle) (now : Nat) (db : Legacy.DB) (id : Nat) (ev : Legacy.LEvent)
      (k : String), Legacy.wfRefs db →
      (findRow k (Legacy.runEvent o now db id ev).snd.mongo).map (fun a => a.studentID) =
      (findRow k db.mongo).map (fun a => a.studentID)) ∧
    (∀ (o : Oracle) (now : Nat) (db : Legacy.DB) (id sid : Nat)
      (payload : Legacy.Achievement),
      (Legacy.UpdateAchievement o now db id sid payload).snd.refs = db.refs) ∧
    (∀ (o : Oracle) (now : Nat) (freshOid : String) (freshRefId : Nat) (db : Ctx.DB)
      (sid : Nat) (req : Ctx.CreateAchievementRequest) (a : Ctx.Achievement),
      (Ctx.CreateAchievement o now freshOid freshRefId db sid req).fst = .ok a →
      a.studentID = sid ∧
      (∃ a', findRow freshOid
        (Ctx.CreateAchievement o now freshOid freshRefId db sid req).snd.mongo = some a' ∧
        a'.studentID = sid) ∧
      (∃ r', findRow freshRefId
        (Ctx.CreateAchievement o now freshOid freshRefId db sid req).snd.refs = some r' ∧
        r'.studentID = sid)) ∧
    (∀ (o : Oracle) (now : Nat) (freshOid : String) (freshRefId : Nat) (db : Legacy.DB)
      (sid : Nat) (payload : Legacy.Achievement) (r : Legacy.AchievementReference),
      (Legacy.CreateAchievement o now freshOid freshRefId db sid payload).fst = .ok r →
      r.studentID = sid ∧
      (∃ a', findRow freshOid
        (Legacy.CreateAchievement o now freshOid freshRefId db sid payload).snd.mongo = some a' ∧
        a'.studentID = sid) ∧
      (∃ r', findRow freshRefId
        (Legacy.CreateAchievement o now freshOid freshRefId db sid payload).snd.refs = some r' ∧
        r'.studentID = sid)) := by
  refine ⟨?_, ?_, ?_, ?_, legacy_update_refs_unchanged, ?_, ?_⟩
  · intro o now db id ev k
    cases ev with
    | submit => exact ctx_submit_owner o now db id k
    | verify v => exact ctx_verify_owner o now db id v k
    | reject v note => exact ctx_reject_owner o now db id v k note
    | delete sid => exact ctx_delete_owner o now db id sid k
  · intro o now db id ev k
    cases ev with
    | submit =>
      exact congrArg (fun m => (findRow k m).map (fun a => a.studentID))
        (ctx_submit_mongo_eq o now db id)
    | verify v =>
      exact congrArg (fun m => (findRow k m).map (fun a => a.studentID))
        (ctx_verify_mongo_eq o now db id v)
    | reject v note =>
      exact congrArg (fun m => (findRow k m).map (fun a => a.studentID))
        (ctx_reject_mongo_eq o now db id v note)
    | delete sid => exact ctx_delete_mongo_owner o now db id sid k
  · intro o now db id ev k hwf
    cases ev with
    | submit sid => exact legacy_submit_owner o now db id sid k hwf
    | verify v => exact legacy_verify_owner o now db id v k hwf
    | reject v note => exact legacy_reject_owner o db id v k note hwf
    | delete sid => exact legacy_delete_owner o now db id sid k hwf
  · intro o now db id ev k hwf
    cases ev with
    | submit sid =>
      exact congrArg (fun m => (findRow k m).map (fun a => a.studentID))
        (legacy_submit_mongo_eq o now db id sid hwf)
    | verify v =>
      exact congrArg (fun m => (findRow k m).map (fun a => a.studentID))
        (legacy_verify_mongo_eq o now db id v hwf)
    | reject v note =>
      exact congrArg (fun m => (findRow k m).map (fun a => a.studentID))
        (legacy_reject_mongo_eq o db id v note hwf)
    | delete sid => exact legacy_delete_mongo_owner o now db id sid k hwf
  · intro o now freshOid freshRefId db sid req a h
    obtain ⟨hmi, hri⟩ := ctx_create_ok_inv h
    have heq := @ctx_create_ok_eq o now freshOid freshRefId db sid req hmi hri
    rw [heq] at h
    refine ⟨?_, ?_, ?_⟩
    · cases h
      rfl
    · rw [heq]
      exact ⟨{ id := freshOid, studentID := sid, achievementType := req.achievementType, title := req.title, description := req.description, tags := req.tags, deletedAt := none, createdAt := now, updatedAt := now }, by simp [findRow], rfl⟩
    · rw [heq]
      exact ⟨{ id := freshRefId, studentID := sid, mongoAchievementID := freshOid, status := Status.draft, submittedAt := none, verifiedAt := none, verifiedBy := none, rejectionNote := none, createdAt := now, updatedAt := now }, by simp [findRow], rfl⟩
  · intro o now freshOid freshRefId db sid payload r h
    obtain ⟨hmi, hri⟩ := legacy_create_ok_inv h
    have heq := @legacy_create_ok_eq o now freshOid freshRefId db sid payload hmi hri
    rw [heq] at h
    refine ⟨?_, ?_, ?_⟩
    · cases h
      rfl
    · rw [heq]
      exact ⟨{ payload with id := freshOid, studentID := sid, createdAt := now, updatedAt := now }, by simp [findRow], rfl⟩
    · rw [heq]
      exact ⟨{ id := freshRefId, studentID := sid, mongoAchievementID := freshOid, status := Status.draft, submittedAt := none, verifiedAt := none, verifiedBy := none, rejectionNote := "", createdAt := now, updatedAt := now }, by simp [findRow], rfl⟩

/-- C6 witness: a concrete successful legacy create on empty stores stamps
student 1 onto both new records, even though the supplied payload claims
student 2. -/
theorem C6_owner_immutable_witness :
    ({ id := 7, studentID := 1, mongoAchievementID := oidA, status := Status.draft, submittedAt := none, verifiedAt := none, verifiedBy := none, rejectionNote := "", createdAt := 0, updatedAt := 0 } : Legacy.AchievementReference).studentID = 1 ∧
    (∃ a', findRow oidA (Legacy.CreateAchievement okOracle 0 oidA 7 ⟨[], []⟩ 1 legPayload).snd.mongo = some a' ∧ a'.studentID = 1) ∧
    (∃ r', findRow 7 (Legacy.CreateAchievement okOracle 0 oidA 7 ⟨[], []⟩ 1 legPayload).snd.refs = some r' ∧ r'.studentID = 1) :=
  C6_owner_immutable.2.2.2.2.2.2 okOracle 0 oidA 7 ⟨[], []⟩ 1 legPayload
    { id := 7, studentID := 1, mongoAchievementID := oidA, status := Status.draft, submittedAt := none, verifiedAt := none, verifiedBy := none, rejectionNote := "", createdAt := 0, updatedAt := 0 }
    rfl

/-- C7 counterexample: in the Ctx generation a successful reject goes through
`AchievementRepository.UpdateStatus`, whose `verified`/`rejected` branch adds
`verified_at = NOW()` — rejecting the submitted achievement 7 (whose
`verified_at` was null) leaves `verified_at = some 5`, refuting the claim
that reject sets only `verifier_id` and `rejection_note` and leaves
`verified_at` null. -/
theorem C7_counterexample :
    (ctxRef .submitted).verifiedAt = none ∧
    (Ctx.RejectAchievement okOracle 5 (ctxDB .submitted) 7 9 "incomplete").fst = .ok () ∧
    (∃ r', findRow 7
      (Ctx.RejectAchievement okOracle 5 (ctxDB .submitted) 7 9 "incomplete").snd.refs = some r' ∧
      r'.verifiedAt = some 5 ∧ r'.verifiedBy = some 9 ∧
      r'.rejectionNote = some "incomplete" ∧ r'.status = Status.rejected) :=
  ⟨rfl, rfl,
    ⟨Ctx.Repo.updateStatusRow 5 .rejected (some 9) (some "incomplete") (ctxRef .submitted),
      rfl, rfl, rfl, rfl, rfl⟩⟩

/-- C7 (amended): a successful reject sets `verifier_id` to the actor and
`rejection_note` to the note in both generations; the `verified_at` behaviour
differs — the Ctx generation's `UpdateStatus` additionally stamps
`verified_at = NOW()` on reject, while the legacy generation leaves
`verified_at` untouched (null when rejecting from `submitted`). -/
theorem C7_reject_effects :
    (∀ (o : Oracle) (now : Nat) (db : Ctx.DB) (id v : Nat) (note : String)
      (ref : Ctx.AchievementReference), findRow id db.refs = some ref →
      ref.status = Status.submitted → o.refUpdateOk = true →
      findRow id (Ctx.RejectAchievement o now db id v note).snd.refs =
        some { ref with status := .rejected, updatedAt := now, verifiedAt := some now, verifiedBy := some v, rejectionNote := some note }) ∧
    (∀ (o : Oracle) (db : Legacy.DB) (id v : Nat) (note : String)
      (ref : Legacy.AchievementReference), findRow id db.refs = some ref →
      ref.id = id → ref.status = Status.submitted → o.refUpdateOk = true →
      findRow id (Legacy.RejectAchievement o db id v note).snd.refs =
        some { ref with status := .rejected, rejectionNote := note, verifiedBy := some v }) := by
  constructor
  · intro o now db id v note ref hfind hs hok
    rw [ctx_reject_submitted hfind hs hok]
    rw [findRow_updateRow_self, hfind]
    rfl
  · intro o db id v note ref hfind hid hs hok
    rw [legacy_reject_ok hfind hid hs hok]
    rw [findRow_updateRow_self, hfind]
    rfl

/-- C7 witness: the Ctx reject effect at the concrete submitted achievement. -/
theorem C7_reject_effects_witness :
    findRow 7 (Ctx.RejectAchievement okOracle 5 (ctxDB .submitted) 7 9 "bad").snd.refs =
      some { ctxRef .submitted with status := .rejected, updatedAt := 5, verifiedAt := some 5, verifiedBy := some 9, rejectionNote := some "bad" } :=
  C7_reject_effects.1 okOracle 5 (ctxDB .submitted) 7 9 "bad" (ctxRef .submitted)
    (by decide) (by decide) (by decide)

/-- A live (draft) reference whose content document is missing from the
content store: the orphan `GetAchievementDetail` should flag. -/
def ctxOrphanDB : Ctx.DB := { mongo := [], refs := [(7, ctxRef .draft)] }

/-- A live reference whose stored mongo id is not a valid 24-hex ObjectID. -/
def ctxBadHexDB : Ctx.DB :=
  { mongo := [], refs := [(8, { ctxRef .draft with id := 8, mongoAchievementID := "zz" })] }

/-- C8 counterexample: reference 7 is live (`draft`) and stores a
well-formed mongo id, but the content document is absent; the surfaced error
is the content store's generic `mongo achievement not found`, not the
distinct data-integrity error — refuting the claim. -/
theorem C8_counterexample :
    (ctxRef .draft).status ≠ Status.deleted ∧
    Ctx.GetAchievementDetail ctxOrphanDB 7 = .error "mongo achievement not found" ∧
    Ctx.GetAchievementDetail ctxOrphanDB 7 ≠
      .error "invalid data integrity: malformed mongo id" := by
  refine ⟨by decide, rfl, ?_⟩
  intro hcontra
  rw [show Ctx.GetAchievementDetail ctxOrphanDB 7 =
    Except.error "mongo achievement not found" from rfl] at hcontra
  exact absurd (Except.error.inj hcontra) (by decide)

/-- C8 (amended): `AchievementService.GetAchievementDetail`
(`src/unnamed/part_002`) surfaces the distinct
`invalid data integrity: malformed mongo id` error only when the stored mongo
id fails to parse; when a live reference's content lookup fails because the
document is missing, the error surfaced is the content store's generic
not-found error. -/
theorem C8_detail_errors :
    (∀ (db : Ctx.DB) (id : Nat) (ref : Ctx.AchievementReference),
      findRow id db.refs = some ref →
      ObjectIDFromHex ref.mongoAchievementID = none →
      Ctx.GetAchievementDetail db id =
        .error "invalid data integrity: malformed mongo id") ∧
    (∀ (db : Ctx.DB) (id : Nat) (ref : Ctx.AchievementReference) (oid : String),
      findRow id db.refs = some ref → ref.status ≠ Status.deleted →
      ObjectIDFromHex ref.mongoAchievementID = some oid →
      findRow oid db.mongo = none →
      Ctx.GetAchievementDetail db id = .error "mongo achievement not found") := by
  constructor
  · intro db id ref hfind hoid
    simp [Ctx.GetAchievementDetail, ctx_get_ref_found hfind, hoid]
  · intro db id ref oid hfind hlive hoid hdoc
    simp [Ctx.GetAchievementDetail, ctx_get_ref_found hfind, hoid,
      Ctx.Repo.GetAchievementByID, hdoc]

/-- C8 witness: the malformed-id branch at the concrete reference 8. -/
theorem C8_detail_errors_witness :
    Ctx.GetAchievementDetail ctxBadHexDB 8 =
      .error "invalid data integrity: malformed mongo id" :=
  C8_detail_errors.1 ctxBadHexDB 8 { ctxRef .draft with id := 8, mongoAchievementID := "zz" }
    (by decide) (by decide)

/-- The check-and-write phase of `SubmitForVerification`
(`src/unnamed/part_002`): everything the service does after its
`GetReferenceByID` read, acting on the reference value `ref` read earlier.
`submit_decomposes` below proves the service call is exactly the read phase
followed by this phase, so interleavings of the two phases of two concurrent
calls are interleavings of the service's actual store operations. -/
def submitWrite (o : Oracle) (now : Nat) (db : Ctx.DB) (id : Nat)
    (ref : Ctx.AchievementReference) : Except String Unit × Ctx.DB :=
  if ref.status ≠ Status.draft then
    (.error "only draft achievements can be submitted", db)
  else
    match Ctx.Repo.UpdateStatus o now db id .submitted none none with
    | .error e => (.error e, db)
    | .ok db1 => (.ok (), db1)

/-- `SubmitForVerification` is the read phase followed by the write phase. -/
theorem submit_decomposes (o : Oracle) (now : Nat) (db : Ctx.DB) (id : Nat) :
    Ctx.SubmitForVerification o now db id =
      (match Ctx.Repo.GetReferenceByID db id with
       | .error e => (.error e, db)
       | .ok ref => submitWrite o now db id ref) := rfl

/-- Two submit calls executed serially: the second call re-reads the store
state left by the first (the interleaving read1 write1 read2 write2). -/
def raceSerial (o : Oracle) (t1 t2 : Nat) (db : Ctx.DB) (id : Nat) :
    Except String Unit × Except String Unit × Ctx.DB :=
  ((Ctx.SubmitForVerification o t1 db id).fst,
   (Ctx.SubmitForVerification o t2 (Ctx.SubmitForVerification o t1 db id).snd id).fst,
   (Ctx.SubmitForVerification o t2 (Ctx.SubmitForVerification o t1 db id).snd id).snd)

/-- Two submit calls racing: both read the same initial state before either
writes (the interleaving read1 read2 write1 write2); each write phase then
acts on its stale read.  Reads do not change the store, so reading the
initial `db` twice is exactly this interleaving. -/
def raceBothReadFirst (o : Oracle) (t1 t2 : Nat) (db : Ctx.DB) (id : Nat) :
    Except String Unit × Except String Unit × Ctx.DB :=
  match Ctx.Repo.GetReferenceByID db id with
  | .error e => (.error e, .error e, db)
  | .ok ref =>
    ((submitWrite o t1 db id ref).fst,
     (submitWrite o t2 (submitWrite o t1 db id ref).snd id ref).fst,
     (submitWrite o t2 (submitWrite o t1 db id ref).snd id ref).snd)

/-- C9 counterexample: on the concrete draft achievement 7, the
read1-read2-write1-write2 interleaving of two submit calls yields TWO
successes (the `UPDATE` has no status guard, so the stale second check
passes), refuting "exactly one successful transition and one invalid-state
rejection, never two successes". -/
theorem C9_counterexample :
    (raceBothReadFirst okOracle 5 6 (ctxDB .draft) 7).fst = .ok () ∧
    (raceBothReadFirst okOracle 5 6 (ctxDB .draft) 7).snd.fst = .ok () ∧
    (∃ r', findRow 7 (raceBothReadFirst okOracle 5 6 (ctxDB .draft) 7).snd.snd.refs =
      some r' ∧ r'.submittedAt = some 6) :=
  ⟨rfl, rfl,
    ⟨Ctx.Repo.updateStatusRow 6 .submitted none none
      (Ctx.Repo.updateStatusRow 5 .submitted none none (ctxRef .draft)), rfl, rfl⟩⟩

/-- C9 (amended): the submit guard is check-then-act with no atomic
status condition on the write.  When the two calls serialize (the second
reads after the first writes) exactly one succeeds and the other fails with
the invalid-state error; but in the interleaving where both calls read the
record while it is still `draft`, both succeed and the later write silently
overwrites `submitted_at`. -/
theorem C9_submit_race (o : Oracle) (t1 t2 : Nat) (db : Ctx.DB) (id : Nat)
    (ref : Ctx.AchievementReference) (hfind : findRow id db.refs = some ref)
    (hdraft : ref.status = Status.draft) (hok : o.refUpdateOk = true) :
    ((raceSerial o t1 t2 db id).fst = .ok () ∧
     (raceSerial o t1 t2 db id).snd.fst =
       .error "only draft achievements can be submitted") ∧
    ((raceBothReadFirst o t1 t2 db id).fst = .ok () ∧
     (raceBothReadFirst o t1 t2 db id).snd.fst = .ok () ∧
     (∃ r', findRow id (raceBothReadFirst o t1 t2 db id).snd.snd.refs = some r' ∧
       r'.submittedAt = some t2)) := by
  have hfind1 : findRow id ({ mongo := db.mongo, refs := updateRow id (Ctx.Repo.updateStatusRow t1 Status.submitted none none) db.refs } : Ctx.DB).refs
      = some (Ctx.Repo.updateStatusRow t1 Status.submitted none none ref) := by
    show findRow id (updateRow id (Ctx.Repo.updateStatusRow t1 Status.submitted none none) db.refs) = _
    rw [findRow_updateRow_self, hfind]
    rfl
  constructor
  · unfold raceSerial
    rw [ctx_submit_draft hfind hdraft hok]
    have hne : (Ctx.Repo.updateStatusRow t1 Status.submitted none none ref).status ≠
        Status.draft := by intro hc; cases hc
    dsimp only
    rw [ctx_submit_not_draft hfind1 hne]
    exact ⟨rfl, rfl⟩
  · unfold raceBothReadFirst
    rw [ctx_get_ref_found hfind]
    have hw1 : submitWrite o t1 db id ref =
        (.ok (), { db with refs := updateRow id (Ctx.Repo.updateStatusRow t1 Status.submitted none none) db.refs }) := by
      simp [submitWrite, hdraft, Ctx.Repo.UpdateStatus, hok, hfind]
    have hw2 : submitWrite o t2 ({ mongo := db.mongo, refs := updateRow id (Ctx.Repo.updateStatusRow t1 Status.submitted none none) db.refs } : Ctx.DB) id ref =
        (.ok (), { mongo := db.mongo, refs := updateRow id (Ctx.Repo.updateStatusRow t2 Status.submitted none none) (updateRow id (Ctx.Repo.updateStatusRow t1 Status.submitted none none) db.refs) }) := by
      simp [submitWrite, hdraft, Ctx.Repo.UpdateStatus, hok, hfind1]
    dsimp only
    rw [hw1]
    dsimp only
    rw [hw2]
    refine ⟨rfl, rfl, ⟨Ctx.Repo.updateStatusRow t2 Status.submitted none none (Ctx.Repo.updateStatusRow t1 Status.submitted none none ref), ?_, rfl⟩⟩
    show findRow id (updateRow id (Ctx.Repo.updateStatusRow t2 Status.submitted none none) (updateRow id (Ctx.Repo.updateStatusRow t1 Status.submitted none none) db.refs)) = _
    rw [findRow_updateRow_self, hfind1]
    rfl

/-- C9 witness: the race theorem at the concrete draft achievement 7. -/
theorem C9_submit_race_witness :
    ((raceSerial okOracle 5 6 (ctxDB .draft) 7).fst = .ok () ∧
     (raceSerial okOracle 5 6 (ctxDB .draft) 7).snd.fst =
       .error "only draft achievements can be submitted") ∧
    ((raceBothReadFirst okOracle 5 6 (ctxDB .draft) 7).fst = .ok () ∧
     (raceBothReadFirst okOracle 5 6 (ctxDB .draft) 7).snd.fst = .ok () ∧
     (∃ r', findRow 7 (raceBothReadFirst okOracle 5 6 (ctxDB .draft) 7).snd.snd.refs =
       some r' ∧ r'.submittedAt = some 6)) :=
  C9_submit_race okOracle 5 6 (ctxDB .draft) 7 (ctxRef .draft)
    (by decide) (by decide) (by decide)

/-- C10: every reference row returned by the three list operations of
`AchievementRepository` (`src/app/repository/achievement_repository.go`) has
status different from `deleted`, and the advisee listing returns only rows in
status `submitted`. -/
theorem C10_listings_exclude_deleted :
    (∀ (db : Ctx.DB) (sid limit offset : Nat) (r : Ctx.AchievementReference),
      r ∈ Ctx.Repo.GetStudentAchievements db sid limit offset →
      r.status ≠ Status.deleted) ∧
    (∀ (db : Ctx.DB) (ids : List Nat) (limit offset : Nat) (r : Ctx.AchievementReference),
      r ∈ Ctx.Repo.GetAdviseeAchievements db ids limit offset →
      r.status = Status.submitted ∧ r.status ≠ Status.deleted) ∧
    (∀ (db : Ctx.DB) (limit offset : Nat) (r : Ctx.AchievementReference),
      r ∈ Ctx.Repo.ListAll db limit offset → r.status ≠ Status.deleted) := by
  refine ⟨?_, ?_, ?_⟩
  · intro db sid limit offset r hr
    unfold Ctx.Repo.GetStudentAchievements at hr
    have h1 := mem_of_mem_applyPage _ _ _ _ hr
    rw [mem_sortByCreatedDesc] at h1
    have h2 := (List.mem_filter.mp h1).2
    simp at h2
    exact h2.2
  · intro db ids limit offset r hr
    unfold Ctx.Repo.GetAdviseeAchievements at hr
    have h1 := mem_of_mem_applyPage _ _ _ _ hr
    rw [mem_sortByCreatedDesc] at h1
    have h2 := (List.mem_filter.mp h1).2
    simp at h2
    refine ⟨h2.2, ?_⟩
    rw [h2.2]
    intro hc
    cases hc
  · intro db limit offset r hr
    unfold Ctx.Repo.ListAll at hr
    have h1 := mem_of_mem_applyPage _ _ _ _ hr
    rw [mem_sortByCreatedDesc] at h1
    have h2 := (List.mem_filter.mp h1).2
    simp at h2
    exact h2

/-- C10 witness: student 1's listing over the concrete store contains the
draft row, and the theorem yields that its status is not `deleted`. -/
theorem C10_listings_exclude_deleted_witness :
    ctxRef .draft ∈ Ctx.Repo.GetStudentAchievements (ctxDB .draft) 1 10 0 ∧
    (ctxRef .draft).status ≠ Status.deleted :=
  ⟨by decide,
    C10_listings_exclude_deleted.1 (ctxDB .draft) 1 10 0 (ctxRef .draft) (by decide)⟩
